import Mathlib

/-!
Verification development for the regtest fixture-generator scripts
(scripts/common.py, scripts/regtest/graph.py, scripts/ui/manual_fixtures.py).

The chain node (bitcoind) is an external collaborator; we model the node
state visible through the command interface the scripts use: a fresh-address
counter, a fresh-txid counter, the list of fetchable transactions, the
mempool, and the block count.  Raw-transaction output ordering is not
guaranteed by the node, so the node carries an arbitrary `shuffle` function
applied to the output list at `createrawtransaction` time; theorems assume
only that it permutes its argument.  Mempool acceptance of a broadcast
transaction is decided by an arbitrary `policy` predicate carried by the
node (used to model the policy rejection of an RBF replacement).
Addresses and txids are modelled as naturals handed out by the counters.
-/

set_option maxRecDepth 20000

/-- An outpoint as the scripts represent it: {txid, vout, value_sat, address}. -/
structure Outpoint where
  txid : Nat
  vout : Nat
  value_sat : Int
  address : Nat
  deriving DecidableEq, Repr

/-- A transaction as visible through getrawtransaction: its id, its inputs
(previous-output references) and its outputs (optional address, value);
the output index `n` is the position in the list. -/
structure Tx where
  txid : Nat
  inputs : List (Nat × Nat)
  outputs : List (Option Nat × Int)
  deriving DecidableEq, Repr

/-- The node state visible to the scripts, plus the two environment
parameters (output ordering, mempool policy) that the scripts do not
control. -/
structure Node where
  nextAddr : Nat
  nextTxid : Nat
  txs : List Tx
  mempool : List Nat
  blocks : Nat
  shuffle : List (Option Nat × Int) → List (Option Nat × Int)
  policy : Tx → List Tx → List Nat → Bool

/-- The monad of the scripts: state-passing over the node, with Python
exceptions as string errors.  An error keeps the node state at the point
the exception was raised (exceptions do not roll back node effects). -/
abbrev M (α : Type) := EStateM String Node α

/-- Constants from scripts/common.py. -/
def SATS_PER_BTC : Int := 100000000

def PER_TX_FEE_SAT : Int := 1000

def MAX_INPUTS_PER_TX : Nat := 100

def MAX_OUTPUTS_PER_TX : Nat := 100

/-- Node command: getnewaddress returns a fresh address. -/
def getnewaddressM : M Nat :=
  fun st => .ok st.nextAddr { st with nextAddr := st.nextAddr + 1 }

/-- A run of k getnewaddress calls (a Python list comprehension over the
output values); returns the k fresh addresses in generation order. -/
def getnewaddresses (k : Nat) : M (List Nat) :=
  fun st => .ok ((List.range k).map (st.nextAddr + ·))
    { st with nextAddr := st.nextAddr + k }

/-- Node command: generatetoaddress mines `n` blocks to a given address;
every mempool transaction is included in a block, so the mempool empties. -/
def generatetoaddress (n : Nat) (st : Node) : Node :=
  { st with blocks := st.blocks + n, mempool := [] }

/-- mine_to_wallet from scripts/common.py: creates a fresh mining address in
the wallet, mines `blocks` blocks to it and returns the address. -/
def mine_to_wallet (blocks : Nat) : M Nat :=
  fun st =>
    match getnewaddressM st with
    | .ok addr st1 => .ok addr (generatetoaddress blocks st1)
    | .error e st1 => .error e st1

/-- Node command: sendrawtransaction.  The transaction id is fresh; the
mempool policy decides acceptance (a rejection raises, leaving state
unchanged). -/
def sendrawtransaction (txin : List (Nat × Nat)) (txout : List (Option Nat × Int)) :
    M Nat :=
  fun st =>
    let tx : Tx := { txid := st.nextTxid, inputs := txin, outputs := txout }
    if st.policy tx st.txs st.mempool then
      .ok st.nextTxid
        { st with nextTxid := st.nextTxid + 1,
                  txs := st.txs ++ [tx],
                  mempool := st.mempool ++ [st.nextTxid] }
    else
      .error "sendrawtransaction rejected by mempool policy" st

/-- Node command: getrawtransaction by id (txindex=1, so any fetchable
transaction is found). -/
def getrawtransaction (st : Node) (txid : Nat) : Option Tx :=
  st.txs.find? (fun tx => tx.txid = txid)

/-- The by_addr dictionary of resolve_outpoints_for_addresses maps an output
address to an output index n; a later vout with the same address overwrites
an earlier one (dict insertion order), so the lookup returns the last
matching index.  Outputs without an address (e.g. OP_RETURN) are skipped. -/
def byAddrGo (a : Nat) : List (Option Nat × Int) → Nat → Option Nat
  | [], _ => none
  | (addr, _) :: rest, i =>
    match byAddrGo a rest (i + 1) with
    | some n => some n
    | none => if addr = some a then some i else none

def byAddr (outs : List (Option Nat × Int)) (a : Nat) : Option Nat :=
  byAddrGo a outs 0

/-- The loop of resolve_outpoints_for_addresses over
zip(addresses, output_values): each address is mapped to its output index
in the broadcast transaction; a missing address is fatal. -/
def resolveList (txid : Nat) (outs : List (Option Nat × Int)) :
    List (Nat × Int) → Except String (List Outpoint)
  | [] => .ok []
  | (a, v) :: rest =>
    match byAddr outs a with
    | none => .error "output address not found in tx"
    | some n =>
      match resolveList txid outs rest with
      | .error e => .error e
      | .ok os => .ok ({ txid := txid, vout := n, value_sat := v, address := a } :: os)

/-- resolve_outpoints_for_addresses from scripts/common.py. -/
def resolve_outpoints_for_addresses (txid : Nat) (addresses : List Nat)
    (output_values : List Int) : M (List Outpoint) :=
  fun st =>
    match getrawtransaction st txid with
    | none => .error "getrawtransaction failed" st
    | some tx =>
      match resolveList txid tx.outputs (addresses.zip output_values) with
      | .error e => .error e st
      | .ok os => .ok os st

/-- spend_inputs from scripts/common.py.  The precondition checks run
before any node command; then one fresh address per output value is
generated, the raw transaction is built (the node chooses the output
ordering, modelled by `shuffle`), signed (the wallet always returns a
complete signature set), broadcast, and the new outpoints are resolved by
matching the destination addresses against the broadcast transaction's
outputs. -/
def spend_inputs (inputs : List Outpoint) (output_values : List Int) :
    M (Nat × List Outpoint) :=
  fun st =>
    if inputs = [] then .error "inputs must not be empty" st
    else if MAX_INPUTS_PER_TX < inputs.length then
      .error "input count exceeds MAX_INPUTS_PER_TX" st
    else if MAX_OUTPUTS_PER_TX < output_values.length then
      .error "output count exceeds MAX_OUTPUTS_PER_TX" st
    else
      let input_sum := (inputs.map Outpoint.value_sat).sum
      let output_sum := output_values.sum
      if input_sum ≤ output_sum then
        .error "output_sum must be less than input_sum" st
      else
        match getnewaddresses output_values.length st with
        | .error e st1 => .error e st1
        | .ok addresses st1 =>
          let raw_inputs := inputs.map (fun o => (o.txid, o.vout))
          let raw_outputs := (addresses.zip output_values).map
            (fun p => ((some p.1 : Option Nat), p.2))
          -- createrawtransaction fixes the node's output order;
          -- signrawtransactionwithwallet returns a complete signature set.
          let signed_complete := true
          if signed_complete = false then
            .error "signrawtransactionwithwallet returned incomplete=false" st1
          else
            match sendrawtransaction raw_inputs (st1.shuffle raw_outputs) st1 with
            | .error e st2 => .error e st2
            | .ok txid st2 =>
              match resolve_outpoints_for_addresses txid addresses output_values st2 with
              | .error e st3 => .error e st3
              | .ok outpoints st3 => .ok (txid, outpoints) st3

/-- Node command: sendmany pays each listed address its value from the
source wallet in one transaction (the wallet picks the funding inputs,
which the scripts never inspect; the node fixes the output order). -/
def sendmany (outputs : List (Nat × Int)) : M Nat :=
  fun st =>
    let tx : Tx := { txid := st.nextTxid, inputs := [],
                     outputs := st.shuffle (outputs.map (fun p => ((some p.1 : Option Nat), p.2))) }
    .ok st.nextTxid
      { st with nextTxid := st.nextTxid + 1,
                txs := st.txs ++ [tx],
                mempool := st.mempool ++ [st.nextTxid] }

/-- The batch loop of fund_wallet_utxos: while remaining > 0, take a batch
of min(80, remaining), generate that many fresh destination addresses,
issue one sendmany covering all of them, mine exactly one confirmation
block, resolve every address to its Outpoint, and continue with the rest;
the batches' outpoints are returned concatenated in batch order.  Each
round removes at least one from `remaining`, so structural fuel of
`remaining` loop iterations suffices; the fuel-exhaustion branch is proven
unreachable below. -/
def fund_go (value_sat : Int) : Nat → Nat → M (List Outpoint)
  | 0, remaining => fun st =>
      if remaining = 0 then .ok [] st
      else .error "unreachable: funding loop fuel exhausted" st
  | fuel + 1, remaining => fun st =>
      if remaining = 0 then .ok [] st
      else
        let batch_count := min 80 remaining
        match getnewaddresses batch_count st with
        | .error e st1 => .error e st1
        | .ok addrs st1 =>
          match sendmany (addrs.map (fun a => (a, value_sat))) st1 with
          | .error e st2 => .error e st2
          | .ok txid st2 =>
            let st3 := generatetoaddress 1 st2
            match resolve_outpoints_for_addresses txid addrs
                (List.replicate batch_count value_sat) st3 with
            | .error e st4 => .error e st4
            | .ok outs st4 =>
              match fund_go value_sat fuel (remaining - batch_count) st4 with
              | .error e st5 => .error e st5
              | .ok rest st5 => .ok (outs ++ rest) st5

/-- fund_wallet_utxos from scripts/common.py. -/
def fund_wallet_utxos (count : Nat) (value_sat : Int) : M (List Outpoint) :=
  fund_go value_sat count count

/-- The group loop of chunked, with structural fuel: one group is emitted
per step and each step drops at least one item (size >= 1), so fuel of
`items.length` steps suffices. -/
def chunkedGo (size : Nat) : Nat → List Outpoint → List (List Outpoint)
  | _, [] => []
  | 0, _ :: _ => []
  | fuel + 1, x :: xs =>
    (x :: xs).take size :: chunkedGo size fuel ((x :: xs).drop size)

/-- chunked from scripts/regtest/graph.py: consecutive groups of at most
`size` items ([items[i:i+size] for i in range(0, len(items), size)];
size = 0 would raise in range() and is never used). -/
def chunked (items : List Outpoint) (size : Nat) : List (List Outpoint) :=
  if size = 0 then [] else chunkedGo size items.length items

/-- Sum of the value_sat fields of a list of outpoints. -/
def listSum (l : List Outpoint) : Int :=
  (l.map Outpoint.value_sat).sum

/-- The per-group loop of one consolidation round: each group is spent down
to a single output of value (group sum - flat fee); the resulting outpoints
are collected in group order. -/
def spend_groups (groups : List (List Outpoint)) : M (List Outpoint) :=
  fun st =>
    match groups with
    | [] => .ok [] st
    | g :: rest =>
      match spend_inputs g [listSum g - PER_TX_FEE_SAT] st with
      | .error e st1 => .error e st1
      | .ok (_txid, outs) st1 =>
        match spend_groups rest st1 with
        | .error e st2 => .error e st2
        | .ok acc st2 => .ok (outs ++ acc) st2

/-- Helper: resolveList returns one outpoint per (address, value) pair. -/
theorem resolveList_ok_length {txid : Nat} {outs : List (Option Nat × Int)}
    {pairs : List (Nat × Int)} {os : List Outpoint}
    (h : resolveList txid outs pairs = .ok os) : os.length = pairs.length := by
  induction pairs generalizing os with
  | nil =>
    simp only [resolveList] at h
    cases h
    rfl
  | cons p rest ih =>
    obtain ⟨a, v⟩ := p
    simp only [resolveList] at h
    split at h
    · exact absurd h (by simp)
    · split at h
      · exact absurd h (by simp)
      · rename_i os' hos'
        cases h
        simp [ih hos']

/-- Helper: a successful resolve call returns one outpoint per zipped pair
and leaves the node unchanged. -/
theorem resolve_ok_elim {txid : Nat} {addrs : List Nat} {vals : List Int}
    {st st' : Node} {os : List Outpoint}
    (h : resolve_outpoints_for_addresses txid addrs vals st = .ok os st') :
    os.length = (addrs.zip vals).length ∧ st' = st := by
  unfold resolve_outpoints_for_addresses at h
  split at h
  · exact absurd h (by simp)
  · split at h
    · exact absurd h (by simp)
    · rename_i os' hos'
      cases h
      exact ⟨resolveList_ok_length hos', rfl⟩

/-- Helper: a successful spend_inputs call returns one outpoint per
requested output value (this justifies termination of the consolidation
loop: each group contributes exactly one outpoint to the next round). -/
theorem spend_inputs_ok_length {inputs : List Outpoint} {vals : List Int}
    {st st' : Node} {txid : Nat} {outs : List Outpoint}
    (h : spend_inputs inputs vals st = .ok (txid, outs) st') :
    outs.length = vals.length := by
  unfold spend_inputs at h
  split at h
  · exact absurd h (by simp)
  split at h
  · exact absurd h (by simp)
  split at h
  · exact absurd h (by simp)
  simp only [getnewaddresses] at h
  split at h
  · exact absurd h (by simp)
  split at h
  · exact absurd h (by simp)
  split at h
  · exact absurd h (by simp)
  split at h
  · exact absurd h (by simp)
  rename_i os' st3 hres
  simp only [EStateM.Result.ok.injEq, Prod.mk.injEq] at h
  obtain ⟨⟨htx, hout⟩, hst⟩ := h
  subst hout
  have := (resolve_ok_elim hres).1
  simpa [List.length_zip] using this

/-- Helper: spend_groups yields exactly one consolidated outpoint per group. -/
theorem spend_groups_ok_length {groups : List (List Outpoint)} {st st' : Node}
    {os : List Outpoint}
    (h : spend_groups groups st = .ok os st') : os.length = groups.length := by
  induction groups generalizing st os st' with
  | nil =>
    simp only [spend_groups] at h
    cases h
    rfl
  | cons g rest ih =>
    simp only [spend_groups] at h
    split at h
    · exact absurd h (by simp)
    rename_i txid outs st1 hspend
    split at h
    · exact absurd h (by simp)
    rename_i acc st2 hrest
    cases h
    have h1 := spend_inputs_ok_length hspend
    have h2 := ih hrest
    simp only [List.length_append, List.length_cons, List.length_nil] at *
    omega

/-- Helper: ceiling-division arithmetic for one chunking step. -/
theorem ceil_div_succ (n size : Nat) (hs : 0 < size) (hn : 0 < n) :
    (n - size + size - 1) / size + 1 = (n + size - 1) / size := by
  rcases Nat.lt_or_ge n size with hlt | hge
  · have h0 : n - size = 0 := by omega
    rw [h0, Nat.div_eq_of_lt (by omega)]
    have h1 : (n + size - 1) / size = 1 :=
      Nat.div_eq_of_lt_le (by omega) (by omega)
    omega
  · have h1 : n + size - 1 = (n - size + size - 1) + size := by omega
    rw [h1, Nat.add_div_right _ hs]

/-- Helper: how many groups the chunking loop produces (with enough fuel). -/
theorem chunkedGo_length (size : Nat) (hs : 0 < size) :
    ∀ (fuel : Nat) (items : List Outpoint), items.length ≤ fuel →
      (chunkedGo size fuel items).length = (items.length + size - 1) / size := by
  intro fuel
  induction fuel with
  | zero =>
    intro items hle
    have h0 : items = [] := List.eq_nil_of_length_eq_zero (by omega)
    subst h0
    simp only [chunkedGo, List.length_nil, Nat.zero_add]
    rw [Nat.div_eq_of_lt (by omega)]
  | succ fuel ih =>
    intro items hle
    match items with
    | [] =>
      simp only [chunkedGo, List.length_nil, Nat.zero_add]
      rw [Nat.div_eq_of_lt (by omega)]
    | x :: xs =>
      simp only [chunkedGo, List.length_cons]
      have ih2 := ih ((x :: xs).drop size)
        (by simp only [List.length_drop, List.length_cons] at *; omega)
      rw [ih2]
      simp only [List.length_drop, List.length_cons]
      exact ceil_div_succ (xs.length + 1) size hs (by omega)

/-- Helper: how many groups chunked produces. -/
theorem chunked_length (items : List Outpoint) (size : Nat) (hs : 0 < size) :
    (chunked items size).length = (items.length + size - 1) / size := by
  unfold chunked
  rw [if_neg (by omega)]
  exact chunkedGo_length size hs items.length items le_rfl

/-- The consolidation while-loop of compress_to_single_outpoint: while more
outpoints remain than fit in one transaction, partition into consecutive
groups of at most the input ceiling, spend each group down to one
consolidated output, mine one confirmation block, and repeat.  Each round
strictly shrinks the working list, so structural fuel of its initial
length suffices; the fuel-exhaustion branch is proven unreachable below. -/
def compress_loop : Nat → List Outpoint → M (List Outpoint)
  | 0, current => fun st =>
      if current.length ≤ MAX_INPUTS_PER_TX then .ok current st
      else .error "unreachable: consolidation fuel exhausted" st
  | fuel + 1, current => fun st =>
      if current.length ≤ MAX_INPUTS_PER_TX then .ok current st
      else
        match spend_groups (chunked current MAX_INPUTS_PER_TX) st with
        | .error e st1 => .error e st1
        | .ok next st1 =>
          match mine_to_wallet 1 st1 with
          | .error e st2 => .error e st2
          | .ok _addr st2 => compress_loop fuel next st2

/-- compress_to_single_outpoint from scripts/regtest/graph.py. -/
def compress_to_single_outpoint (outpoints : List Outpoint) :
    M (Nat × List Outpoint × List Outpoint) :=
  fun st =>
    if outpoints = [] then .error "outpoints must not be empty" st
    else if outpoints.length ≤ MAX_INPUTS_PER_TX then
      match spend_inputs outpoints [listSum outpoints - PER_TX_FEE_SAT] st with
      | .error e st1 => .error e st1
      | .ok (txid, final_outs) st1 => .ok (txid, final_outs, outpoints) st1
    else
      match compress_loop outpoints.length outpoints st with
      | .error e st1 => .error e st1
      | .ok current st1 =>
        match spend_inputs current [listSum current - PER_TX_FEE_SAT] st1 with
        | .error e st2 => .error e st2
        | .ok (txid, final_outs) st2 => .ok (txid, final_outs, current) st2

/-- The take-one pool operation shared by the topology builders
(graph.py and manual_fixtures.py): fatal on an empty pool, otherwise
removes and returns the first (oldest) pooled outpoint. -/
def take_utxo (pool : List Outpoint) : Except String (Outpoint × List Outpoint) :=
  match pool with
  | [] => .error "not enough funded UTXOs for scenario generation"
  | x :: rest => .ok (x, rest)

/-- A sequence of n take-one draws from the pool, collecting the drawn
outpoints in draw order together with the remaining pool. -/
def draws (pool : List Outpoint) : Nat → Except String (List Outpoint × List Outpoint)
  | 0 => .ok ([], pool)
  | n + 1 =>
    match take_utxo pool with
    | .error e => .error e
    | .ok (x, rest) =>
      match draws rest n with
      | .error e => .error e
      | .ok (xs, fin) => .ok (x :: xs, fin)

/-- Well-formedness of the node: all recorded transaction ids were handed
out by the txid counter. -/
def NodeWF (st : Node) : Prop := ∀ tx ∈ st.txs, tx.txid < st.nextTxid

/-- The node's output ordering only permutes the outputs. -/
def ShuffleOK (st : Node) : Prop := ∀ l, (st.shuffle l).Perm l

/-- The node's mempool policy accepts every broadcast. -/
def PolicyOK (st : Node) : Prop := ∀ tx txs mp, st.policy tx txs mp = true

/-- The transaction a successful spend_inputs call broadcasts. -/
def spendTxOf (st : Node) (inputs : List Outpoint) (vals : List Int) : Tx :=
  { txid := st.nextTxid,
    inputs := inputs.map (fun o => (o.txid, o.vout)),
    outputs := st.shuffle
      ((((List.range vals.length).map (st.nextAddr + ·)).zip vals).map
        (fun p => ((some p.1 : Option Nat), p.2))) }

/-- The node state after a successful spend_inputs broadcast. -/
def spendNodeOf (st : Node) (inputs : List Outpoint) (vals : List Int) : Node :=
  { st with nextAddr := st.nextAddr + vals.length,
            nextTxid := st.nextTxid + 1,
            txs := st.txs ++ [spendTxOf st inputs vals],
            mempool := st.mempool ++ [st.nextTxid] }

/-- Helper: a well-formed node has no transaction at the fresh txid. -/
theorem NodeWF.find_none {st : Node} (hwf : NodeWF st) :
    st.txs.find? (fun t => t.txid = st.nextTxid) = none := by
  rw [List.find?_eq_none]
  intro t ht
  simp only [decide_eq_true_eq]
  exact Nat.ne_of_lt (hwf t ht)

/-- Helper: guard-elimination evaluation equation for spend_inputs.  When
the precondition checks pass, the fresh txid is unused, and the policy
accepts the broadcast, the call reduces to resolving the fresh addresses
against the broadcast transaction. -/
theorem spend_inputs_run {st : Node} {inputs : List Outpoint} {vals : List Int}
    (hne : inputs ≠ [])
    (hni : inputs.length ≤ MAX_INPUTS_PER_TX)
    (hno : vals.length ≤ MAX_OUTPUTS_PER_TX)
    (hsum : vals.sum < (inputs.map Outpoint.value_sat).sum)
    (hpol : st.policy (spendTxOf st inputs vals) st.txs st.mempool = true) :
    spend_inputs inputs vals st =
      match resolve_outpoints_for_addresses st.nextTxid
          ((List.range vals.length).map (st.nextAddr + ·)) vals
          (spendNodeOf st inputs vals) with
      | .error e stE => .error e stE
      | .ok os stO => .ok (st.nextTxid, os) stO := by
  unfold spend_inputs
  rw [if_neg hne, if_neg (Nat.not_lt.mpr hni), if_neg (Nat.not_lt.mpr hno)]
  simp only [getnewaddresses, sendrawtransaction]
  rw [if_neg (not_le.mpr hsum)]
  rw [if_neg (show ¬ (true = false) by simp)]
  simp only [spendTxOf] at hpol
  rw [if_pos hpol]
  simp only [spendNodeOf, spendTxOf]

/-- The fresh-address/value pair list of a spend or funding payment, as it
appears in the raw transaction outputs (identity ordering): one
(some address, value) output per requested value, addresses consecutive
from `base`. -/
def addrOuts (base : Nat) : List Int -> List (Option Nat × Int)
  | [] => []
  | v :: rest => ((some base : Option Nat), v) :: addrOuts (base + 1) rest

/-- The zip(addresses, output_values) pair list with consecutive fresh
addresses from `base`. -/
def addrPairs (base : Nat) : List Int -> List (Nat × Int)
  | [] => []
  | v :: rest => (base, v) :: addrPairs (base + 1) rest

/-- The outpoint list a spend or funding resolution returns under identity
output ordering: the i-th outpoint carries output index i and the i-th
fresh address. -/
def spendOutsGo (txid : Nat) : Nat -> Nat -> List Int -> List Outpoint
  | _, _, [] => []
  | a, i, v :: rest =>
    { txid := txid, vout := i, value_sat := v, address := a } ::
      spendOutsGo txid (a + 1) (i + 1) rest

/-- Helper: the generated address list zipped with the output values is the
consecutive pair list. -/
theorem zip_range_eq_addrPairs :
    ∀ (vals : List Int) (base : Nat),
      (((List.range vals.length).map (base + ·)).zip vals) = addrPairs base vals := by
  intro vals
  induction vals with
  | nil => intro base; rfl
  | cons v rest ih =>
    intro base
    rw [List.length_cons, List.range_succ_eq_map]
    simp only [List.map_cons, List.map_map, List.zip_cons_cons, addrPairs]
    rw [show ((base + ·) ∘ Nat.succ) = ((base + 1) + ·) by funext x; simp; omega]
    rw [ih (base + 1)]
    norm_num

/-- Helper: the raw output list of a spend is the consecutive
address-output list. -/
theorem map_addrPairs_eq_addrOuts :
    ∀ (vals : List Int) (base : Nat),
      (addrPairs base vals).map (fun p => ((some p.1 : Option Nat), p.2)) =
        addrOuts base vals := by
  intro vals
  induction vals with
  | nil => intro base; rfl
  | cons v rest ih =>
    intro base
    simp only [addrPairs, List.map_cons, addrOuts, ih (base + 1)]

/-- Helper: address lookup over the consecutive address-output list finds
exactly the offset of the address. -/
theorem byAddrGo_addrOuts (a : Nat) :
    ∀ (vals : List Int) (b j : Nat),
      byAddrGo a (addrOuts b vals) j =
        if b ≤ a ∧ a < b + vals.length then some (j + (a - b)) else none := by
  intro vals
  induction vals with
  | nil =>
    intro b j
    simp only [addrOuts, byAddrGo, List.length_nil]
    rw [if_neg (by omega)]
  | cons v rest ih =>
    intro b j
    simp only [addrOuts, byAddrGo, ih (b + 1) (j + 1), List.length_cons]
    by_cases h1 : b + 1 ≤ a ∧ a < b + 1 + rest.length
    · rw [if_pos h1, if_pos (show b ≤ a ∧ a < b + (rest.length + 1) by omega)]
      simp only []
      congr 1
      omega
    · rw [if_neg h1]
      simp only []
      by_cases h2 : b = a
      · subst h2
        rw [if_pos rfl, if_pos (show b ≤ b ∧ b < b + (rest.length + 1) by omega)]
        simp only [Option.some.injEq]
        omega
      · rw [if_neg (show ¬ ((some b : Option Nat) = some a) by simpa using h2),
          if_neg (show ¬ (b ≤ a ∧ a < b + (rest.length + 1)) by omega)]

/-- Helper: byAddr over the consecutive address-output list. -/
theorem byAddr_addrOuts (a base : Nat) (vals : List Int) :
    byAddr (addrOuts base vals) a =
      if base ≤ a ∧ a < base + vals.length then some (a - base) else none := by
  unfold byAddr
  rw [byAddrGo_addrOuts]
  split
  · rw [Nat.zero_add]
  · rfl

/-- Helper: find? over a list extended with the searched-for transaction. -/
theorem find?_append_last {txs : List Tx} {tx : Tx} {n : Nat}
    (hnone : txs.find? (fun t => t.txid = n) = none) (htx : tx.txid = n) :
    (txs ++ [tx]).find? (fun t => t.txid = n) = some tx := by
  rw [List.find?_append, hnone]
  simp [List.find?, htx]

/-- Helper: closed form of the resolution loop when every consecutive
address resolves to its consecutive index. -/
theorem resolveList_addrOuts (txid : Nat) (outs : List (Option Nat × Int)) :
    ∀ (suffix : List Int) (a0 i0 : Nat),
      (∀ m, m < suffix.length → byAddr outs (a0 + m) = some (i0 + m)) →
      resolveList txid outs (addrPairs a0 suffix) =
        .ok (spendOutsGo txid a0 i0 suffix) := by
  intro suffix
  induction suffix with
  | nil => intro a0 i0 _; rfl
  | cons v rest ih =>
    intro a0 i0 hB
    have h0 : byAddr outs a0 = some i0 := by simpa using hB 0 (by simp)
    have hrec := ih (a0 + 1) (i0 + 1) (fun m hm => by
      have h := hB (m + 1) (by simpa using Nat.succ_lt_succ hm)
      rwa [show a0 + (m + 1) = a0 + 1 + m by omega,
           show i0 + (m + 1) = i0 + 1 + m by omega] at h)
    simp only [addrPairs, resolveList, h0, hrec, spendOutsGo]

/-- Helper: full evaluation equation for a successful spend_inputs call
under identity output ordering: the returned outpoints are one per output
value, in order, with consecutive output indices and fresh addresses. -/
theorem spend_inputs_eval {st : Node} {inputs : List Outpoint} {vals : List Int}
    (hsh : st.shuffle = fun l => l)
    (hfind : st.txs.find? (fun t => t.txid = st.nextTxid) = none)
    (hpol : st.policy (spendTxOf st inputs vals) st.txs st.mempool = true)
    (hne : inputs ≠ [])
    (hni : inputs.length ≤ MAX_INPUTS_PER_TX)
    (hno : vals.length ≤ MAX_OUTPUTS_PER_TX)
    (hsum : vals.sum < (inputs.map Outpoint.value_sat).sum) :
    spend_inputs inputs vals st =
      .ok (st.nextTxid, spendOutsGo st.nextTxid st.nextAddr 0 vals)
        (spendNodeOf st inputs vals) := by
  have houts : (spendTxOf st inputs vals).outputs = addrOuts st.nextAddr vals := by
    show st.shuffle _ = _
    rw [hsh]
    show (((List.range vals.length).map (st.nextAddr + ·)).zip vals).map _ = _
    rw [zip_range_eq_addrPairs, map_addrPairs_eq_addrOuts]
  have hB : ∀ m, m < vals.length →
      byAddr (addrOuts st.nextAddr vals) (st.nextAddr + m) = some (0 + m) := by
    intro m hm
    rw [byAddr_addrOuts]
    rw [if_pos (show st.nextAddr ≤ st.nextAddr + m ∧
      st.nextAddr + m < st.nextAddr + vals.length by omega)]
    congr 1
    omega
  have hres : resolve_outpoints_for_addresses st.nextTxid
      ((List.range vals.length).map (st.nextAddr + ·)) vals (spendNodeOf st inputs vals) =
      .ok (spendOutsGo st.nextTxid st.nextAddr 0 vals) (spendNodeOf st inputs vals) := by
    unfold resolve_outpoints_for_addresses getrawtransaction
    rw [show (spendNodeOf st inputs vals).txs = st.txs ++ [spendTxOf st inputs vals] from rfl]
    rw [find?_append_last hfind rfl]
    simp only []
    rw [houts, zip_range_eq_addrPairs]
    rw [resolveList_addrOuts st.nextTxid (addrOuts st.nextAddr vals) vals st.nextAddr 0 hB]
  rw [spend_inputs_run hne hni hno hsum hpol, hres]

/-- The transaction a sendmany call broadcasts. -/
def sendmanyTxOf (st : Node) (outputs : List (Nat × Int)) : Tx :=
  { txid := st.nextTxid, inputs := [],
    outputs := st.shuffle (outputs.map (fun p => ((some p.1 : Option Nat), p.2))) }

/-- The node state after one funding batch (sendmany plus one mined
confirmation block). -/
def fundBatchNode (st : Node) (batch : Nat) (v : Int) : Node :=
  { st with nextAddr := st.nextAddr + batch,
            nextTxid := st.nextTxid + 1,
            txs := st.txs ++
              [sendmanyTxOf st (((List.range batch).map (st.nextAddr + ·)).map (fun a => (a, v)))],
            mempool := [],
            blocks := st.blocks + 1 }

/-- Helper: the sendmany output pairs are the consecutive pair list. -/
theorem map_range_pairs (v : Int) :
    ∀ (k base : Nat),
      ((List.range k).map (base + ·)).map (fun a => (a, v)) =
        addrPairs base (List.replicate k v) := by
  intro k
  induction k with
  | zero => intro base; rfl
  | succ n ih =>
    intro base
    rw [List.range_succ_eq_map]
    simp only [List.map_cons, List.map_map, List.replicate_succ, addrPairs]
    refine congrArg _ ?_
    rw [show ((fun a => (a, v)) ∘ ((base + ·) ∘ Nat.succ)) =
          ((fun a => ((a : Nat), v)) ∘ ((base + 1) + ·)) by funext x; simp; omega]
    have h := ih (base + 1)
    rw [List.map_map] at h
    exact h

/-- Helper: full evaluation equation for one funding batch of fund_go under
identity output ordering. -/
theorem fund_go_succ_eval {st : Node} {v : Int} {fuel remaining : Nat}
    (hr : remaining ≠ 0)
    (hsh : st.shuffle = fun l => l)
    (hfind : st.txs.find? (fun t => t.txid = st.nextTxid) = none) :
    fund_go v (fuel + 1) remaining st =
      match fund_go v fuel (remaining - min 80 remaining)
          (fundBatchNode st (min 80 remaining) v) with
      | .error e st5 => .error e st5
      | .ok rest st5 =>
          .ok (spendOutsGo st.nextTxid st.nextAddr 0
            (List.replicate (min 80 remaining) v) ++ rest) st5 := by
  have houts : (sendmanyTxOf st
      (((List.range (min 80 remaining)).map (st.nextAddr + ·)).map (fun a => (a, v)))).outputs =
      addrOuts st.nextAddr (List.replicate (min 80 remaining) v) := by
    show st.shuffle _ = _
    rw [hsh]
    show (((List.range (min 80 remaining)).map (st.nextAddr + ·)).map (fun a => (a, v))).map _ = _
    rw [map_range_pairs, map_addrPairs_eq_addrOuts]
  have hB : ∀ m, m < (List.replicate (min 80 remaining) v).length →
      byAddr (addrOuts st.nextAddr (List.replicate (min 80 remaining) v))
        (st.nextAddr + m) = some (0 + m) := by
    intro m hm
    rw [byAddr_addrOuts]
    rw [if_pos (show st.nextAddr ≤ st.nextAddr + m ∧ st.nextAddr + m <
      st.nextAddr + (List.replicate (min 80 remaining) v).length by omega)]
    congr 1
    omega
  have hres : resolve_outpoints_for_addresses st.nextTxid
      ((List.range (min 80 remaining)).map (st.nextAddr + ·))
      (List.replicate (min 80 remaining) v)
      (fundBatchNode st (min 80 remaining) v) =
      .ok (spendOutsGo st.nextTxid st.nextAddr 0 (List.replicate (min 80 remaining) v))
        (fundBatchNode st (min 80 remaining) v) := by
    unfold resolve_outpoints_for_addresses getrawtransaction
    rw [show (fundBatchNode st (min 80 remaining) v).txs = st.txs ++
      [sendmanyTxOf st (((List.range (min 80 remaining)).map (st.nextAddr + ·)).map
        (fun a => (a, v)))] from rfl]
    rw [find?_append_last hfind rfl]
    simp only []
    rw [houts]
    rw [show ((List.range (min 80 remaining)).map (st.nextAddr + ·)).zip
        (List.replicate (min 80 remaining) v) =
        addrPairs st.nextAddr (List.replicate (min 80 remaining) v) by
      have h := zip_range_eq_addrPairs (List.replicate (min 80 remaining) v) st.nextAddr
      rwa [List.length_replicate] at h]
    rw [resolveList_addrOuts st.nextTxid _ _ st.nextAddr 0 hB]
  show (if remaining = 0 then _ else _) = _
  rw [if_neg hr]
  simp only [getnewaddresses, sendmany, generatetoaddress]
  rw [show ({ st with nextAddr := st.nextAddr + min 80 remaining } : Node).shuffle =
    st.shuffle from rfl]
  change (match resolve_outpoints_for_addresses st.nextTxid
      ((List.range (min 80 remaining)).map (st.nextAddr + ·))
      (List.replicate (min 80 remaining) v)
      (fundBatchNode st (min 80 remaining) v) with
    | EStateM.Result.error e st4 => EStateM.Result.error e st4
    | EStateM.Result.ok outs st4 =>
      match fund_go v fuel (remaining - min 80 remaining) st4 with
      | EStateM.Result.error e st4 => EStateM.Result.error e st4
      | EStateM.Result.ok rest st5 => EStateM.Result.ok (outs ++ rest) st5) = _
  rw [hres]

/-- Projection equations keeping evaluated node states folded. -/
theorem spendNodeOf_nextAddr (st : Node) (i : List Outpoint) (v : List Int) :
    (spendNodeOf st i v).nextAddr = st.nextAddr + v.length := rfl

theorem spendNodeOf_nextTxid (st : Node) (i : List Outpoint) (v : List Int) :
    (spendNodeOf st i v).nextTxid = st.nextTxid + 1 := rfl

theorem spendNodeOf_txs (st : Node) (i : List Outpoint) (v : List Int) :
    (spendNodeOf st i v).txs = st.txs ++ [spendTxOf st i v] := rfl

theorem spendNodeOf_mempool (st : Node) (i : List Outpoint) (v : List Int) :
    (spendNodeOf st i v).mempool = st.mempool ++ [st.nextTxid] := rfl

theorem spendNodeOf_blocks (st : Node) (i : List Outpoint) (v : List Int) :
    (spendNodeOf st i v).blocks = st.blocks := rfl

theorem spendNodeOf_shuffle (st : Node) (i : List Outpoint) (v : List Int) :
    (spendNodeOf st i v).shuffle = st.shuffle := rfl

theorem spendNodeOf_policy (st : Node) (i : List Outpoint) (v : List Int) :
    (spendNodeOf st i v).policy = st.policy := rfl

theorem spendTxOf_txid (st : Node) (i : List Outpoint) (v : List Int) :
    (spendTxOf st i v).txid = st.nextTxid := rfl

theorem fundBatchNode_nextAddr (st : Node) (b : Nat) (v : Int) :
    (fundBatchNode st b v).nextAddr = st.nextAddr + b := rfl

theorem fundBatchNode_nextTxid (st : Node) (b : Nat) (v : Int) :
    (fundBatchNode st b v).nextTxid = st.nextTxid + 1 := rfl

theorem fundBatchNode_txs (st : Node) (b : Nat) (v : Int) :
    (fundBatchNode st b v).txs = st.txs ++
      [sendmanyTxOf st (((List.range b).map (st.nextAddr + ·)).map (fun a => (a, v)))] := rfl

theorem fundBatchNode_mempool (st : Node) (b : Nat) (v : Int) :
    (fundBatchNode st b v).mempool = [] := rfl

theorem fundBatchNode_blocks (st : Node) (b : Nat) (v : Int) :
    (fundBatchNode st b v).blocks = st.blocks + 1 := rfl

theorem fundBatchNode_shuffle (st : Node) (b : Nat) (v : Int) :
    (fundBatchNode st b v).shuffle = st.shuffle := rfl

theorem fundBatchNode_policy (st : Node) (b : Nat) (v : Int) :
    (fundBatchNode st b v).policy = st.policy := rfl

theorem sendmanyTxOf_txid (st : Node) (outputs : List (Nat × Int)) :
    (sendmanyTxOf st outputs).txid = st.nextTxid := rfl

/-- Under identity output ordering the spend transaction is the literal
record with consecutive fresh-address outputs. -/
theorem spendTxOf_eval {st : Node} (inputs : List Outpoint) (vals : List Int)
    (hsh : st.shuffle = fun l => l) :
    spendTxOf st inputs vals =
      { txid := st.nextTxid,
        inputs := inputs.map (fun o => (o.txid, o.vout)),
        outputs := addrOuts st.nextAddr vals } := by
  unfold spendTxOf
  rw [hsh, zip_range_eq_addrPairs, map_addrPairs_eq_addrOuts]

theorem spendTxOf_inputs (st : Node) (inputs : List Outpoint) (vals : List Int) :
    (spendTxOf st inputs vals).inputs = inputs.map (fun o => (o.txid, o.vout)) := rfl

/-- Projection equations for generatetoaddress (mining). -/
theorem generatetoaddress_eval (n : Nat) (st : Node) :
    generatetoaddress n st =
      { st with blocks := st.blocks + n, mempool := [] } := rfl

/-- Helper: find? over an append, none case. -/
theorem find?_append_none {l1 l2 : List Tx} {p : Tx → Bool}
    (h1 : l1.find? p = none) (h2 : l2.find? p = none) :
    (l1 ++ l2).find? p = none := by
  rw [List.find?_append, h1, h2]
  rfl

/-- Helper: find? over an append, hit in the left part. -/
theorem find?_append_left {l1 l2 : List Tx} {p : Tx → Bool} {tx : Tx}
    (h1 : l1.find? p = some tx) :
    (l1 ++ l2).find? p = some tx := by
  rw [List.find?_append, h1]
  rfl

/-- Helper: find? over an append, miss in the left part. -/
theorem find?_append_right {l1 l2 : List Tx} {p : Tx → Bool}
    (h1 : l1.find? p = none) :
    (l1 ++ l2).find? p = l2.find? p := by
  rw [List.find?_append, h1]
  rfl

/-- Traversal limits of a scenario. -/

structure Limits where
  max_depth : Nat
  max_nodes : Nat
  max_edges : Nat
  deriving DecidableEq, Repr

/-- A required spend edge of a scenario. -/
structure Edge where
  spending_txid : Nat
  input_index : Nat
  funding_txid : Nat
  funding_vout : Nat
  deriving DecidableEq, Repr

/-- A scenario record as emitted by build_fixture_scenarios in
scripts/regtest/graph.py (optional keys become Option fields, absent by
default). -/
structure Scenario where
  name : String
  tier : String
  root_txid : Nat
  limits : Limits
  expect_truncated : Bool
  required_nodes : List Nat
  required_edges : List Edge
  expected_exact_node_count : Option Nat := none
  expected_exact_edge_count : Option Nat := none
  expected_unresolved_input_count : Option Nat := none
  deriving DecidableEq, Repr

/-- Raising a Python exception. -/
def raise {α : Type} (msg : String) : M α :=
  fun st => .error msg st

/-- Lift a pure Except computation (such as a pool draw or a list index)
into the node monad. -/
def liftE {α : Type} (e : Except String α) : M α :=
  fun st =>
    match e with
    | .ok a => .ok a st
    | .error m => .error m st

/-- Python list indexing l[i] for i >= 0 (IndexError on overflow). -/
def listIdx {α : Type} (l : List α) (i : Nat) : Except String α :=
  match l.get? i with
  | some a => .ok a
  | none => .error "list index out of range"

/-- Python negative list indexing l[-k] (IndexError when k = 0 or k > len). -/
def listNeg {α : Type} (l : List α) (k : Nat) : Except String α :=
  if k = 0 ∨ l.length < k then .error "list index out of range"
  else listIdx l (l.length - k)

/-- required_seed_utxos from scripts/regtest/graph.py. -/
def required_seed_utxos (tier : String) (stress_target : Nat) : Nat :=
  let functional_budget := 56
  let stress_budget := stress_target + 24
  if tier = "functional" then functional_budget
  else if tier = "stress" then stress_budget
  else functional_budget + stress_budget

/-- Scenario block small_chain_3 of build_fixture_scenarios (a three-hop
linear chain, mined): returns the emitted scenario and the remaining seed
pool. -/
def g_small_chain (utxos : List Outpoint) : M (Scenario × List Outpoint) := do
  let p0 ← liftE (take_utxo utxos)
  let u0 := p0.1
  let (tx1, o1) ← spend_inputs [u0] [u0.value_sat - 1000]
  let o1h ← liftE (listIdx o1 0)
  let (tx2, o2) ← spend_inputs o1 [o1h.value_sat - 1000]
  let o2h ← liftE (listIdx o2 0)
  let (tx3, _o3) ← spend_inputs o2 [o2h.value_sat - 1000]
  let _ ← mine_to_wallet 1
  pure ({
    name := "small_chain_3", tier := "functional", root_txid := tx3,
    limits := { max_depth := 6, max_nodes := 512, max_edges := 2048 },
    expect_truncated := false,
    required_nodes := [tx3, tx2, tx1],
    required_edges := [
      { spending_txid := tx3, input_index := 0,
        funding_txid := tx2, funding_vout := o2h.vout },
      { spending_txid := tx2, input_index := 0,
        funding_txid := tx1, funding_vout := o1h.vout }] }, p0.2)

/-- Scenario block merge_parent_double_input of build_fixture_scenarios
(one parent with two outputs, both consumed by the root). -/
def g_merge_parent (utxos : List Outpoint) : M (Scenario × List Outpoint) := do
  let p1 ← liftE (take_utxo utxos)
  let u1 := p1.1
  let (parent_txid, parent_outs) ← spend_inputs [u1] [40000000, 59999000]
  let (root_txid, _root_outs) ← spend_inputs parent_outs [99997000]
  let _ ← mine_to_wallet 1
  let pe0 ← liftE (listIdx parent_outs 0)
  let pe1 ← liftE (listIdx parent_outs 1)
  pure ({
    name := "merge_parent_double_input", tier := "functional",
    root_txid := root_txid,
    limits := { max_depth := 6, max_nodes := 512, max_edges := 2048 },
    expect_truncated := false,
    required_nodes := [root_txid, parent_txid],
    required_edges := [
      { spending_txid := root_txid, input_index := 0,
        funding_txid := parent_txid, funding_vout := pe0.vout },
      { spending_txid := root_txid, input_index := 1,
        funding_txid := parent_txid, funding_vout := pe1.vout }] }, p1.2)

/-- Scenario block wide_frontier_32 of build_fixture_scenarios (32 mined
parents consolidated by one root); also returns the root txid, reused by
the node-limit and edge-limit truncation scenarios. -/
def g_wide_frontier (utxos : List Outpoint) :
    M (Scenario × Nat × List Outpoint) := do
  let mut pool := utxos
  let mut wide_inputs : List Outpoint := []
  for _ in List.range 32 do
    let p ← liftE (take_utxo pool)
    wide_inputs := wide_inputs ++ [p.1]
    pool := p.2
  let mut wparent_outs : List Outpoint := []
  for utxo in wide_inputs do
    let (_txid, outs) ← spend_inputs [utxo] [utxo.value_sat - 1000]
    wparent_outs := wparent_outs ++ outs
  let _ ← mine_to_wallet 1
  let (wide_root, _wide_root_outs) ←
    spend_inputs wparent_outs [listSum wparent_outs - 32000]
  let _ ← mine_to_wallet 1
  let wp0 ← liftE (listIdx wparent_outs 0)
  let wp31 ← liftE (listIdx wparent_outs 31)
  pure ({
    name := "wide_frontier_32", tier := "functional", root_txid := wide_root,
    limits := { max_depth := 6, max_nodes := 2048, max_edges := 8192 },
    expect_truncated := false,
    required_nodes := [wide_root],
    required_edges := [
      { spending_txid := wide_root, input_index := 0,
        funding_txid := wp0.txid, funding_vout := wp0.vout },
      { spending_txid := wide_root, input_index := 31,
        funding_txid := wp31.txid, funding_vout := wp31.vout }] },
    wide_root, pool)

/-- Scenario blocks deep_chain_40_full and deep_chain_40_depth_limited of
build_fixture_scenarios (a forty-hop chain with a mine every twenty hops;
the two scenarios share the chain). -/
def g_deep_chain (utxos : List Outpoint) :
    M (Scenario × Scenario × List Outpoint) := do
  let p2 ← liftE (take_utxo utxos)
  let u2 := p2.1
  let mut chain_out : List Outpoint := [u2]
  let mut chain_txids : List Nat := []
  for i in List.range 40 do
    let ch ← liftE (listIdx chain_out 0)
    let (txid, os) ← spend_inputs chain_out [ch.value_sat - 1000]
    chain_out := os
    chain_txids := chain_txids ++ [txid]
    if (i + 1) % 20 = 0 then
      let _ ← mine_to_wallet 1
  let _ ← mine_to_wallet 1
  let deep_root ← liftE (listNeg chain_txids 1)
  let deep_prev ← liftE (listNeg chain_txids 2)
  let deep_first ← liftE (listIdx chain_txids 0)
  let chf ← liftE (listIdx chain_out 0)
  pure ({
    name := "deep_chain_40_full", tier := "functional", root_txid := deep_root,
    limits := { max_depth := 60, max_nodes := 4096, max_edges := 8192 },
    expect_truncated := false,
    required_nodes := [deep_root, deep_prev, deep_first],
    required_edges := [
      { spending_txid := deep_root, input_index := 0,
        funding_txid := deep_prev, funding_vout := chf.vout }] },
   { name := "deep_chain_40_depth_limited", tier := "functional",
     root_txid := deep_root,
     limits := { max_depth := 10, max_nodes := 4096, max_edges := 8192 },
     expect_truncated := true,
     required_nodes := [deep_root],
     required_edges := [] }, p2.2)

/-- Scenario node_limit_truncation of build_fixture_scenarios (pure
record: probes the wide root under max_nodes 5). -/
def g_node_limit (wide_root : Nat) : Scenario :=
  { name := "node_limit_truncation", tier := "functional",
    root_txid := wide_root,
    limits := { max_depth := 10, max_nodes := 5, max_edges := 8192 },
    expect_truncated := true,
    required_nodes := [wide_root],
    required_edges := [] }

/-- Scenario edge_limit_truncation of build_fixture_scenarios (pure
record: probes the wide root under max_edges 10, with exact expected
counts). -/
def g_edge_limit (wide_root : Nat) : Scenario :=
  { name := "edge_limit_truncation", tier := "functional",
    root_txid := wide_root,
    limits := { max_depth := 10, max_nodes := 8192, max_edges := 10 },
    expect_truncated := true,
    required_nodes := [wide_root],
    required_edges := [],
    expected_exact_node_count := some 1,
    expected_exact_edge_count := some 0 }

/-- Scenario block spent_prevout_gap of build_fixture_scenarios (a mined
parent/root pair probed with max_depth 0). -/
def g_spent_gap (utxos : List Outpoint) : M (Scenario × List Outpoint) := do
  let p3 ← liftE (take_utxo utxos)
  let u3 := p3.1
  let (parent, parent_out) ← spend_inputs [u3] [u3.value_sat - 1000]
  let po ← liftE (listIdx parent_out 0)
  let (gap_root, _gap_out) ← spend_inputs parent_out [po.value_sat - 1000]
  let _ ← mine_to_wallet 1
  pure ({
    name := "spent_prevout_gap", tier := "functional", root_txid := gap_root,
    limits := { max_depth := 0, max_nodes := 64, max_edges := 256 },
    expect_truncated := true,
    required_nodes := [gap_root],
    required_edges := [
      { spending_txid := gap_root, input_index := 0,
        funding_txid := parent, funding_vout := po.vout }],
    expected_unresolved_input_count := some 0 }, p3.2)

/-- Scenario block stress_deep of build_fixture_scenarios (a
stress_target-hop chain with a mine every twenty hops). -/
def g_stress_deep (stress_target : Nat) (utxos : List Outpoint) :
    M (Scenario × List Outpoint) := do
  let p4 ← liftE (take_utxo utxos)
  let mut dchain_out : List Outpoint := [p4.1]
  let mut deep_txids : List Nat := []
  for i in List.range stress_target do
    let ch ← liftE (listIdx dchain_out 0)
    let (txid, os) ← spend_inputs dchain_out [ch.value_sat - 1000]
    dchain_out := os
    deep_txids := deep_txids ++ [txid]
    if (i + 1) % 20 = 0 then
      let _ ← mine_to_wallet 1
  let _ ← mine_to_wallet 1
  let root_deep ← liftE (listNeg deep_txids 1)
  let prev_deep ← liftE (listNeg deep_txids 2)
  let first_deep ← liftE (listIdx deep_txids 0)
  let dchf ← liftE (listIdx dchain_out 0)
  pure ({
    name := "stress_deep_" ++ toString stress_target, tier := "stress",
    root_txid := root_deep,
    limits := { max_depth := stress_target + 20,
                max_nodes := stress_target + 200,
                max_edges := stress_target * 2 + 100 },
    expect_truncated := false,
    required_nodes := [root_deep, prev_deep, first_deep],
    required_edges := [
      { spending_txid := root_deep, input_index := 0,
        funding_txid := prev_deep, funding_vout := dchf.vout }] }, p4.2)

/-- Scenario block stress_wide of build_fixture_scenarios (stress_target
mined parents consolidated through compress_to_single_outpoint). -/
def g_stress_wide (stress_target : Nat) (utxos : List Outpoint) :
    M (Scenario × List Outpoint) := do
  let mut pool := utxos
  let mut seed_inputs : List Outpoint := []
  for _ in List.range stress_target do
    let p ← liftE (take_utxo pool)
    seed_inputs := seed_inputs ++ [p.1]
    pool := p.2
  let mut parents : List Outpoint := []
  for utxo in seed_inputs do
    let (_t, outs) ← spend_inputs [utxo] [utxo.value_sat - 1000]
    parents := parents ++ outs
  let _ ← mine_to_wallet 1
  let (wide_root2, _wo, wide_root_inputs) ← compress_to_single_outpoint parents
  let _ ← mine_to_wallet 1
  let wri0 ← liftE (listIdx wide_root_inputs 0)
  let wriL ← liftE (listNeg wide_root_inputs 1)
  pure ({
    name := "stress_wide_" ++ toString stress_target, tier := "stress",
    root_txid := wide_root2,
    limits := { max_depth := 6,
                max_nodes := stress_target * 3 + 200,
                max_edges := stress_target * 4 + 200 },
    expect_truncated := false,
    required_nodes := [wide_root2],
    required_edges := [
      { spending_txid := wide_root2, input_index := 0,
        funding_txid := wri0.txid, funding_vout := wri0.vout },
      { spending_txid := wide_root2, input_index := wide_root_inputs.length - 1,
        funding_txid := wriL.txid, funding_vout := wriL.vout }] }, pool)

/-- Scenario block stress_merge of build_fixture_scenarios (a short chain
feeding a 100-output parent whose outputs are all merged by the root). -/
def g_stress_merge (stress_target : Nat) (utxos : List Outpoint) :
    M (Scenario × List Outpoint) := do
  let p5 ← liftE (take_utxo utxos)
  let merge_chain_len := max 1 (stress_target - 2)
  let mut merge_chain_out : List Outpoint := [p5.1]
  for i in List.range merge_chain_len do
    let ch ← liftE (listIdx merge_chain_out 0)
    let (_txid, os) ← spend_inputs merge_chain_out [ch.value_sat - PER_TX_FEE_SAT]
    merge_chain_out := os
    if (i + 1) % 20 = 0 then
      let _ ← mine_to_wallet 1
  let _ ← mine_to_wallet 1
  let merge_fanout := min MAX_OUTPUTS_PER_TX 100
  let mh ← liftE (listIdx merge_chain_out 0)
  let remaining := mh.value_sat - PER_TX_FEE_SAT
  let output_value := Int.fdiv remaining (merge_fanout : Int)
  if output_value ≤ 1000 then
    raise "merge parent output value became too small"
  let (merge_parent, merge_parent_outs) ←
    spend_inputs merge_chain_out (List.replicate merge_fanout output_value)
  let (merge_root, _merge_outs) ←
    spend_inputs merge_parent_outs [output_value * (merge_fanout : Int) - 2000]
  let _ ← mine_to_wallet 1
  let mp0 ← liftE (listIdx merge_parent_outs 0)
  let mpL ← liftE (listNeg merge_parent_outs 1)
  pure ({
    name := "stress_merge_" ++ toString stress_target, tier := "stress",
    root_txid := merge_root,
    limits := { max_depth := merge_chain_len + 10,
                max_nodes := 2048,
                max_edges := stress_target * 3 + 100 },
    expect_truncated := false,
    required_nodes := [merge_root, merge_parent],
    required_edges := [
      { spending_txid := merge_root, input_index := 0,
        funding_txid := merge_parent, funding_vout := mp0.vout },
      { spending_txid := merge_root, input_index := merge_fanout - 1,
        funding_txid := merge_parent, funding_vout := mpL.vout }] }, p5.2)

/-- build_fixture_scenarios from scripts/regtest/graph.py: funds the seed
pool, then constructs every scenario of the selected tier in order,
emitting the scenario records with their analytically computed ground
truth. -/
def build_fixture_scenarios (stress_target : Nat) (tier : String) :
    M (List Scenario) := do
  let utxos_needed := required_seed_utxos tier stress_target
  let seeded ← fund_wallet_utxos utxos_needed 100000000
  let mut utxos := seeded
  let mut scenarios : List Scenario := []
  if tier = "all" ∨ tier = "functional" then
    let (s1, u1) ← g_small_chain utxos
    let (s2, u2) ← g_merge_parent u1
    let (s3, wide_root, u3) ← g_wide_frontier u2
    let (s4a, s4b, u4) ← g_deep_chain u3
    let (s5, u5) ← g_spent_gap u4
    utxos := u5
    scenarios := scenarios ++
      [s1, s2, s3, s4a, s4b, g_node_limit wide_root, g_edge_limit wide_root, s5]
  if tier = "all" ∨ tier = "stress" then
    let (s6, u6) ← g_stress_deep stress_target utxos
    let (s7, u7) ← g_stress_wide stress_target u6
    let (s8, u8) ← g_stress_merge stress_target u7
    utxos := u8
    scenarios := scenarios ++ [s6, s7, s8]
  pure scenarios

/-- A scenario record as emitted by build_scenarios in
scripts/ui/manual_fixtures.py; label_txids is an optional narrowing of the
txids probed during label generation. -/
structure UIScenario where
  name : String
  description : String
  root_txid : Nat
  related_txids : List Nat
  label_txids : Option (List Nat) := none
  suggested_ui_checks : List String := []
  why_interesting : String := ""
  ui_focus : String := ""
  deriving DecidableEq, Repr

/-- dedupe_preserve_order from scripts/ui/manual_fixtures.py. -/
def dedupe_go (seen : List Nat) : List Nat → List Nat
  | [] => []
  | x :: rest =>
    if x ∈ seen then dedupe_go seen rest
    else x :: dedupe_go (x :: seen) rest

def dedupe_preserve_order (items : List Nat) : List Nat :=
  dedupe_go [] items

/-- The per-scenario txid selection of collect_label_refs: a non-empty
label_txids list narrows the probe to exactly those ids, otherwise the
root and the related txids are probed. -/
def label_probe_txids (s : UIScenario) : List Nat :=
  match s.label_txids with
  | some l => if l = [] then s.root_txid :: s.related_txids else l
  | none => s.root_txid :: s.related_txids

/-- The candidate txid list of collect_label_refs from
scripts/ui/manual_fixtures.py (the ids handed to getrawtransaction while
generating label fixtures), deduplicated in scenario order. -/
def candidate_txids (scenarios : List UIScenario) : List Nat :=
  dedupe_preserve_order ((scenarios.map label_probe_txids).flatten)

/-- send_raw_with_outputs from scripts/ui/manual_fixtures.py: builds a raw
transaction paying the given address/value outputs (plus an OP_RETURN data
output when requested), signs and broadcasts it.  The sequence number only
signals replaceability and is not otherwise modelled. -/
def send_raw_with_outputs (inputs : List Outpoint) (outputs : List (Nat × Int))
    (op_return_data : Bool) (_sequence : Option Nat) : M Nat :=
  fun st =>
    let raw_inputs := inputs.map (fun o => (o.txid, o.vout))
    let base := outputs.map (fun p => ((some p.1 : Option Nat), p.2))
    let raw_outputs := if op_return_data then base ++ [((none : Option Nat), 0)] else base
    sendrawtransaction raw_inputs (st.shuffle raw_outputs) st

/-- The profile table of build_scenarios (fan, equal, long_depth). -/
def profile_cfg (profile : String) : Option (Nat × Nat × Nat) :=
  if profile = "fast" then some (20, 5, 52)
  else if profile = "balanced" then some (24, 6, 60)
  else if profile = "rich" then some (40, 10, 80)
  else none

/-- Scenario block 1 of build_scenarios (simple payment chain, four hops,
mined): returns the emitted scenario and the remaining seed pool. -/
def ui_simple_chain (utxos : List Outpoint) : M (UIScenario × List Outpoint) := do
  let p0 ← liftE (take_utxo utxos)
  let mut simple : List Outpoint := [p0.1]
  let mut simple_txids : List Nat := []
  for _ in List.range 4 do
    let sh ← liftE (listIdx simple 0)
    let (txid, os) ← spend_inputs simple [sh.value_sat - PER_TX_FEE_SAT]
    simple := os
    simple_txids := simple_txids ++ [txid]
  let _ ← mine_to_wallet 1
  let sroot ← liftE (listNeg simple_txids 1)
  pure ({
    name := "simple_chain_4",
    description := "Linear ancestry chain with four hops.",
    root_txid := sroot, related_txids := simple_txids,
    suggested_ui_checks := [
      "Graph renders a single path with one parent per node.",
      "No truncation expected with default limits."],
    why_interesting := "Baseline shape for sanity checks.",
    ui_focus := "Verify depth progression and edge direction." }, p0.2)

/-- Scenario block 2 of build_scenarios (diamond/merge DAG, mined). -/
def ui_diamond (utxos : List Outpoint) : M (UIScenario × List Outpoint) := do
  let p1 ← liftE (take_utxo utxos)
  let (parent_txid, parent_outs) ← spend_inputs [p1.1] [49999000, 49999000]
  let pa0 ← liftE (listIdx parent_outs 0)
  let pa1 ← liftE (listIdx parent_outs 1)
  let (left_txid, left_out) ← spend_inputs [pa0] [49998000]
  let (right_txid, right_out) ← spend_inputs [pa1] [49998000]
  let (merge_txid, _) ← spend_inputs (left_out ++ right_out) [99994000]
  let _ ← mine_to_wallet 1
  pure ({
    name := "diamond_merge",
    description := "Split into two branches that merge back into one root.",
    root_txid := merge_txid,
    related_txids := [merge_txid, left_txid, right_txid, parent_txid],
    suggested_ui_checks := [
      "Merged parent appears once as a deduped DAG node.",
      "Root has two input edges from different branch txs."],
    why_interesting := "Validates merge handling and de-duplication.",
    ui_focus := "Look for shared ancestor behavior." }, p1.2)

/-- Scenario block 3 of build_scenarios (fan-in consolidation, mined). -/
def ui_fan_in (fan_count : Nat) (utxos : List Outpoint) :
    M (UIScenario × List Outpoint) := do
  let mut pool := utxos
  let mut fan_in_inputs : List Outpoint := []
  for _ in List.range fan_count do
    let p ← liftE (take_utxo pool)
    fan_in_inputs := fan_in_inputs ++ [p.1]
    pool := p.2
  let (fan_in_txid, _) ← spend_inputs fan_in_inputs
    [listSum fan_in_inputs - (fan_count : Int) * PER_TX_FEE_SAT]
  let _ ← mine_to_wallet 1
  pure ({
    name := "fan_in_" ++ toString fan_count,
    description := "Consolidation transaction spending many inputs.",
    root_txid := fan_in_txid,
    related_txids := [fan_in_txid] ++ fan_in_inputs.map Outpoint.txid,
    suggested_ui_checks := [
      "Root has many incoming ancestry edges.",
      "Check performance on wide incoming edge sets."],
    why_interesting := "Exercises dense input fan-in rendering.",
    ui_focus := "Inspect edge count and node detail stability." }, pool)

/-- Scenario block 4 of build_scenarios (fan-out payout, mined). -/
def ui_fan_out (fan_count : Nat) (utxos : List Outpoint) :
    M (UIScenario × List Outpoint) := do
  let p2 ← liftE (take_utxo utxos)
  let fan_out_input := p2.1
  let fan_out_each :=
    Int.fdiv (fan_out_input.value_sat - PER_TX_FEE_SAT) (fan_count : Int)
  let (fan_out_txid, _fan_out_outs) ←
    spend_inputs [fan_out_input] (List.replicate fan_count fan_out_each)
  let _ ← mine_to_wallet 1
  pure ({
    name := "fan_out_" ++ toString fan_count,
    description := "Single-input payout creating many outputs.",
    root_txid := fan_out_txid,
    related_txids := [fan_out_txid, fan_out_input.txid],
    suggested_ui_checks := [
      "Root has one parent in ancestry despite many outputs.",
      "Node detail should show large output list cleanly."],
    why_interesting := "Shows output-heavy tx detail handling.",
    ui_focus := "Inspect output rendering and labeling controls." }, p2.2)

/-- Scenario block 5 of build_scenarios (coinjoin-like equal-output
transaction, mined). -/
def ui_coinjoin (equal_count : Nat) (utxos : List Outpoint) :
    M (UIScenario × List Outpoint) := do
  let mut pool := utxos
  let mut coinjoin_inputs : List Outpoint := []
  for _ in List.range equal_count do
    let p ← liftE (take_utxo pool)
    coinjoin_inputs := coinjoin_inputs ++ [p.1]
    pool := p.2
  let equal_value :=
    Int.fdiv (listSum coinjoin_inputs - (equal_count : Int) * PER_TX_FEE_SAT)
      (equal_count : Int)
  let (coinjoin_txid, _) ←
    spend_inputs coinjoin_inputs (List.replicate equal_count equal_value)
  let _ ← mine_to_wallet 1
  pure ({
    name := "coinjoin_like_equal_outputs_" ++ toString equal_count,
    description := "Multi-input transaction with equal-valued outputs.",
    root_txid := coinjoin_txid,
    related_txids := [coinjoin_txid] ++ coinjoin_inputs.map Outpoint.txid,
    suggested_ui_checks := [
      "Equal output amounts are visible in tx detail.",
      "No heuristic claims should imply deterministic linkage."],
    why_interesting := "Resembles common collaborative spend patterns.",
    ui_focus := "Verify value symmetry and neutral interpretation." }, pool)

/-- Scenario block 6 of build_scenarios (CPFP-style parent and child,
described as intentionally left unconfirmed; the block itself performs no
mining). -/
def ui_cpfp (utxos : List Outpoint) : M (UIScenario × List Outpoint) := do
  let p3 ← liftE (take_utxo utxos)
  let cpfp_parent_in := p3.1
  let (cpfp_parent_txid, cpfp_parent_out) ←
    spend_inputs [cpfp_parent_in] [cpfp_parent_in.value_sat - 5000]
  let cp0 ← liftE (listIdx cpfp_parent_out 0)
  let (cpfp_child_txid, _) ← spend_inputs cpfp_parent_out [cp0.value_sat - 25000]
  pure ({
    name := "cpfp_parent_child",
    description := "Unconfirmed parent with child paying a higher fee.",
    root_txid := cpfp_child_txid,
    related_txids := [cpfp_child_txid, cpfp_parent_txid],
    suggested_ui_checks := [
      "Root ancestry includes the unconfirmed parent.",
      "Fee and feerate differ notably between parent and child."],
    why_interesting := "Shows package-like ancestor relationships.",
    ui_focus := "Compare fee metrics parent vs child." }, p3.2)

/-- Scenario block 7 of build_scenarios (RBF-signaling transaction and
replacement attempt; the replacement broadcast and its confirmation are
guarded by try/except and a rejection falls back to the
rbf_original_only scenario). -/
def ui_rbf (utxos : List Outpoint) : M (UIScenario × List Outpoint) := do
  let p4 ← liftE (take_utxo utxos)
  let rbf_input := p4.1
  let rbf_addr_1 ← getnewaddressM
  let rbf_addr_2 ← getnewaddressM
  let rbf_txid_1 ← send_raw_with_outputs [rbf_input]
    [(rbf_addr_1, rbf_input.value_sat - 5000)] false (some 0xFFFFFFFD)
  let s0 ← get
  match (((do
      let t2 ← send_raw_with_outputs [rbf_input]
        [(rbf_addr_2, rbf_input.value_sat - 25000)] false (some 0xFFFFFFFD)
      let _ ← mine_to_wallet 1
      pure t2) : M Nat)).run s0 with
  | .ok rbf_txid_2 s1 =>
    set s1
    pure ({
      name := "rbf_replacement",
      description := "RBF-signaling transaction replaced by a higher-fee spend.",
      root_txid := rbf_txid_2,
      related_txids := [rbf_txid_1, rbf_txid_2],
      label_txids := some [rbf_txid_2],
      suggested_ui_checks := [
        "Replacement tx appears as current spend of the same outpoint.",
        "RBF signaling metadata is visible on the replacement path."],
      why_interesting := "Validates replaceability and mempool replacement behavior.",
      ui_focus := "Inspect sequence-based signaling and tx history context." }, p4.2)
  | .error _exc s1 =>
    set s1
    let _ ← mine_to_wallet 1
    pure ({
      name := "rbf_original_only",
      description := "RBF-signaling transaction (replacement was rejected by mempool policy).",
      root_txid := rbf_txid_1,
      related_txids := [rbf_txid_1],
      suggested_ui_checks := [
        "RBF signaling metadata is visible on the original tx."],
      why_interesting := "Shows RBF signaling even when replacement is unavailable.",
      ui_focus := "Inspect sequence-based signaling." }, p4.2)

/-- Scenario block 8 of build_scenarios (OP_RETURN-carrying transaction,
mined). -/
def ui_op_return (utxos : List Outpoint) : M (UIScenario × List Outpoint) := do
  let p5 ← liftE (take_utxo utxos)
  let opret_input := p5.1
  let opret_pay_addr ← getnewaddressM
  let opret_txid ← send_raw_with_outputs [opret_input]
    [(opret_pay_addr, opret_input.value_sat - 8000)] true none
  let _ ← mine_to_wallet 1
  pure ({
    name := "op_return_payload",
    description := "Transaction includes an OP_RETURN data output.",
    root_txid := opret_txid,
    related_txids := [opret_txid],
    suggested_ui_checks := [
      "Output script classification includes OP_RETURN.",
      "Data-carrying output does not break graph or label UI."],
    why_interesting := "Covers non-spendable output script types.",
    ui_focus := "Confirm script type enrichment and output listing." }, p5.2)

/-- Scenario block 9 of build_scenarios (long chain exceeding the default
graph depth of 50, with a mine every twenty hops). -/
def ui_deep_chain (long_depth : Nat) (utxos : List Outpoint) :
    M (UIScenario × List Outpoint) := do
  let p6 ← liftE (take_utxo utxos)
  let mut deep_out : List Outpoint := [p6.1]
  let mut deep_txids : List Nat := []
  for idx in List.range long_depth do
    let dh ← liftE (listIdx deep_out 0)
    let (deep_txid, os) ← spend_inputs deep_out [dh.value_sat - PER_TX_FEE_SAT]
    deep_out := os
    deep_txids := deep_txids ++ [deep_txid]
    if (idx + 1) % 20 = 0 then
      let _ ← mine_to_wallet 1
  let _ ← mine_to_wallet 1
  let droot ← liftE (listNeg deep_txids 1)
  let dprev ← liftE (listNeg deep_txids 2)
  let dfirst ← liftE (listIdx deep_txids 0)
  pure ({
    name := "deep_chain_" ++ toString long_depth ++ "_for_truncation",
    description := "Long ancestry chain meant to exceed default max_depth=50.",
    root_txid := droot,
    related_txids := [droot, dprev, dfirst],
    suggested_ui_checks := [
      "Default graph request reports truncated=true.",
      "Increasing max_depth query parameter reveals deeper ancestry."],
    why_interesting := "Demonstrates limit-driven truncation behavior.",
    ui_focus := "Check truncated flag and depth stats in API response." }, p6.2)

/-- build_scenarios from scripts/ui/manual_fixtures.py: funds the seed
pool, then constructs the nine manual UI scenarios in order.  The mining
step between the CPFP block and the RBF block is the one issued after the
CPFP scenario is appended. -/
def build_scenarios (profile : String) : M (List UIScenario) := do
  match profile_cfg profile with
  | none => raise "unknown profile"
  | some (fan_count, equal_count, long_depth) =>
    let seed_count := 120
    let seeded ← fund_wallet_utxos seed_count 100000000
    let (s1, u1) ← ui_simple_chain seeded
    let (s2, u2) ← ui_diamond u1
    let (s3, u3) ← ui_fan_in fan_count u2
    let (s4, u4) ← ui_fan_out fan_count u3
    let (s5, u5) ← ui_coinjoin equal_count u4
    let (s6, u6) ← ui_cpfp u5
    let _ ← mine_to_wallet 1
    let (s7, u7) ← ui_rbf u6
    let (s8, u8) ← ui_op_return u7
    let (s9, _u9) ← ui_deep_chain long_depth u8
    pure [s1, s2, s3, s4, s5, s6, s7, s8, s9]

/-- Evaluation equation for fund_go when no outpoints remain. -/
theorem fund_go_done (v : Int) (fuel : Nat) (st : Node) :
    fund_go v fuel 0 st = .ok [] st := by
  cases fuel <;> rfl

/-- Evaluation equation for the monadic get on a node state. -/
theorem M_get_eval (st : Node) : (get : M Node) st = .ok st st := rfl

/-- Evaluation equation for the monadic set on a node state. -/
theorem M_set_eval (s st : Node) : (set s : M PUnit) st = .ok PUnit.unit s := rfl

/-- The value a run returns, when it succeeds. -/
def okValue {α : Type} : EStateM.Result String Node α → Option α
  | .ok a _ => some a
  | .error _ _ => none

/-- The node state a run ends in (errors carry their state as well). -/
def finalNode {α : Type} : EStateM.Result String Node α → Node
  | .ok _ s => s
  | .error _ s => s

/-- The canonical concrete node: fresh counters, empty chain, identity
output ordering, accept-everything mempool policy. -/
def node0 : Node :=
  { nextAddr := 0, nextTxid := 0, txs := [], mempool := [], blocks := 0,
    shuffle := fun l => l, policy := fun _ _ _ => true }

/-- Two transactions conflict when they spend a common previous output. -/
def conflictsWith (a b : Tx) : Bool :=
  a.inputs.any (fun i => b.inputs.contains i)

/-- A mempool policy that rejects any transaction conflicting with a
transaction currently in the mempool (BIP125 replacement rejected). -/
def noRbfPolicy : Tx → List Tx → List Nat → Bool :=
  fun tx txs mp =>
    mp.all (fun m =>
      match txs.find? (fun t => t.txid = m) with
      | some t => !(conflictsWith tx t)
      | none => true)

def nodeNoRbf : Node := { node0 with policy := noRbfPolicy }

/-- Closed-form evaluation of the small_chain_3 scenario block from any
well-formed entering state (identity output ordering, accepting policy,
fresh transaction ids): the block broadcasts a three-transaction chain,
and the emitted scenario's required_nodes names all three chain
transaction ids. -/
theorem g_small_chain_eval (st : Node) (u : Outpoint) (rest : List Outpoint)
    (hsh : st.shuffle = fun l => l)
    (hpol : ∀ tx txs mp, st.policy tx txs mp = true)
    (hfr0 : st.txs.find? (fun t => t.txid = st.nextTxid) = none)
    (hfr : ∀ n, st.txs.find? (fun t => t.txid = st.nextTxid + n) = none) :
    okValue (g_small_chain (u :: rest) st) =
      some ({ name := "small_chain_3", tier := "functional",
              root_txid := st.nextTxid + 2,
              limits := { max_depth := 6, max_nodes := 512, max_edges := 2048 },
              expect_truncated := false,
              required_nodes := [st.nextTxid + 2, st.nextTxid + 1, st.nextTxid],
              required_edges := [
                { spending_txid := st.nextTxid + 2, input_index := 0,
                  funding_txid := st.nextTxid + 1, funding_vout := 0 },
                { spending_txid := st.nextTxid + 1, input_index := 0,
                  funding_txid := st.nextTxid, funding_vout := 0 }] }, rest) ∧
    (finalNode (g_small_chain (u :: rest) st)).txs.map Tx.txid =
      st.txs.map Tx.txid ++ [st.nextTxid, st.nextTxid + 1, st.nextTxid + 2] := by
  simp only [g_small_chain, bind, EStateM.bind, pure, EStateM.pure,
    spend_inputs_eval, spendOutsGo, spendNodeOf, spendTxOf_eval, addrOuts,
    liftE, listIdx, listNeg, take_utxo, raise, mine_to_wallet, getnewaddressM,
    generatetoaddress, listSum, okValue, finalNode,
    hsh, hpol, hfr0, hfr, find?_append_none,
    List.forIn_cons, List.forIn_nil, List.range_succ, List.range_zero,
    List.append_assoc, List.replicate_succ, List.replicate,
    List.get?_nil, List.get?_cons_zero, List.get?_cons_succ,
    List.find?_nil, List.find?_cons, List.map_append,
    List.map_cons, List.map_nil, List.append_nil, List.nil_append,
    List.cons_append, List.singleton_append, List.length_cons, List.length_nil,
    List.sum_cons, List.sum_nil, List.zip_cons_cons, List.zip_nil_right,
    List.zip_nil_left,
    add_right_inj, self_eq_add_right, add_zero, Nat.add_assoc, sub_sub,
    sub_lt_self_iff, sub_lt_sub_iff_left,
    Nat.reduceAdd, Nat.reduceSub, Nat.reduceMul, Nat.reduceMod,
    Nat.reduceDiv, Nat.reduceLeDiff, Nat.reduceEqDiff, Nat.reduceLT,
    Int.reduceAdd, Int.reduceSub, Int.reduceMul, Int.reduceNeg, Int.reduceLT,
    Int.reduceLE, Int.reduceFDiv, Int.reduceEq,
    String.reduceEq, reduceIte, reduceCtorEq, ne_eq, not_false_eq_true,
    decide_True, decide_False, cond_true, cond_false,
    or_self, or_false, false_or, or_true, true_or, and_self,
    MAX_INPUTS_PER_TX, MAX_OUTPUTS_PER_TX, PER_TX_FEE_SAT,
    Option.some.injEq, Prod.mk.injEq, Scenario.mk.injEq, Edge.mk.injEq,
    Limits.mk.injEq, eq_self_iff_true,
    and_true, true_and, and_false, false_and,
    Nat.cast_ofNat, Nat.cast_one, Nat.cast_zero, M_get_eval, M_set_eval]

/-- Closed-form evaluation of the deep_chain_40_full and
deep_chain_40_depth_limited scenario block from any well-formed entering
state: the block broadcasts a forty-transaction chain, while the full
scenario's required_nodes names only the root, its parent and the first
chain transaction. -/
theorem g_deep_chain_eval (st : Node) (u : Outpoint) (rest : List Outpoint)
    (hsh : st.shuffle = fun l => l)
    (hpol : ∀ tx txs mp, st.policy tx txs mp = true)
    (hfr0 : st.txs.find? (fun t => t.txid = st.nextTxid) = none)
    (hfr : ∀ n, st.txs.find? (fun t => t.txid = st.nextTxid + n) = none) :
    okValue (g_deep_chain (u :: rest) st) =
      some ({ name := "deep_chain_40_full", tier := "functional",
              root_txid := st.nextTxid + 39,
              limits := { max_depth := 60, max_nodes := 4096, max_edges := 8192 },
              expect_truncated := false,
              required_nodes := [st.nextTxid + 39, st.nextTxid + 38, st.nextTxid],
              required_edges := [
                { spending_txid := st.nextTxid + 39, input_index := 0,
                  funding_txid := st.nextTxid + 38, funding_vout := 0 }] },
            { name := "deep_chain_40_depth_limited", tier := "functional",
              root_txid := st.nextTxid + 39,
              limits := { max_depth := 10, max_nodes := 4096, max_edges := 8192 },
              expect_truncated := true,
              required_nodes := [st.nextTxid + 39],
              required_edges := [] }, rest) ∧
    (finalNode (g_deep_chain (u :: rest) st)).txs.map Tx.txid =
      st.txs.map Tx.txid ++ (List.range 40).map (st.nextTxid + ·) := by
  simp only [g_deep_chain, bind, EStateM.bind, pure, EStateM.pure,
    spend_inputs_eval, spendOutsGo, spendNodeOf, spendTxOf_eval, addrOuts,
    liftE, listIdx, listNeg, take_utxo, raise, mine_to_wallet, getnewaddressM,
    generatetoaddress, listSum, okValue, finalNode,
    hsh, hpol, hfr0, hfr, find?_append_none,
    List.forIn_cons, List.forIn_nil, List.range_succ, List.range_zero,
    List.append_assoc, List.replicate_succ, List.replicate,
    List.get?_nil, List.get?_cons_zero, List.get?_cons_succ,
    List.find?_nil, List.find?_cons, List.map_append,
    List.map_cons, List.map_nil, List.append_nil, List.nil_append,
    List.cons_append, List.singleton_append, List.length_cons, List.length_nil,
    List.sum_cons, List.sum_nil, List.zip_cons_cons, List.zip_nil_right,
    List.zip_nil_left,
    add_right_inj, self_eq_add_right, add_zero, Nat.add_assoc, sub_sub,
    sub_lt_self_iff, sub_lt_sub_iff_left,
    Nat.reduceAdd, Nat.reduceSub, Nat.reduceMul, Nat.reduceMod,
    Nat.reduceDiv, Nat.reduceLeDiff, Nat.reduceEqDiff, Nat.reduceLT,
    Int.reduceAdd, Int.reduceSub, Int.reduceMul, Int.reduceNeg, Int.reduceLT,
    Int.reduceLE, Int.reduceFDiv, Int.reduceEq,
    String.reduceEq, reduceIte, reduceCtorEq, ne_eq, not_false_eq_true,
    decide_True, decide_False, cond_true, cond_false,
    or_self, or_false, false_or, or_true, true_or, and_self,
    MAX_INPUTS_PER_TX, MAX_OUTPUTS_PER_TX, PER_TX_FEE_SAT,
    Option.some.injEq, Prod.mk.injEq, Scenario.mk.injEq, Edge.mk.injEq,
    Limits.mk.injEq, eq_self_iff_true,
    and_true, true_and, and_false, false_and,
    Nat.cast_ofNat, Nat.cast_one, Nat.cast_zero, M_get_eval, M_set_eval]

/-- Closed-form evaluation of the stress_deep block at stress target 5
from any well-formed entering state: the block broadcasts a
five-transaction chain, while the scenario's required_nodes names only
the root, its parent and the first chain transaction. -/
theorem g_stress_deep_eval (st : Node) (u : Outpoint) (rest : List Outpoint)
    (hsh : st.shuffle = fun l => l)
    (hpol : ∀ tx txs mp, st.policy tx txs mp = true)
    (hfr0 : st.txs.find? (fun t => t.txid = st.nextTxid) = none)
    (hfr : ∀ n, st.txs.find? (fun t => t.txid = st.nextTxid + n) = none) :
    okValue (g_stress_deep 5 (u :: rest) st) =
      some ({ name := "stress_deep_" ++ toString 5, tier := "stress",
              root_txid := st.nextTxid + 4,
              limits := { max_depth := 25, max_nodes := 205, max_edges := 110 },
              expect_truncated := false,
              required_nodes := [st.nextTxid + 4, st.nextTxid + 3, st.nextTxid],
              required_edges := [
                { spending_txid := st.nextTxid + 4, input_index := 0,
                  funding_txid := st.nextTxid + 3, funding_vout := 0 }] }, rest) ∧
    (finalNode (g_stress_deep 5 (u :: rest) st)).txs.map Tx.txid =
      st.txs.map Tx.txid ++ (List.range 5).map (st.nextTxid + ·) := by
  simp only [g_stress_deep, bind, EStateM.bind, pure, EStateM.pure,
    spend_inputs_eval, spendOutsGo, spendNodeOf, spendTxOf_eval, addrOuts,
    liftE, listIdx, listNeg, take_utxo, raise, mine_to_wallet, getnewaddressM,
    generatetoaddress, listSum, okValue, finalNode,
    hsh, hpol, hfr0, hfr, find?_append_none,
    List.forIn_cons, List.forIn_nil, List.range_succ, List.range_zero,
    List.append_assoc, List.replicate_succ, List.replicate,
    List.get?_nil, List.get?_cons_zero, List.get?_cons_succ,
    List.find?_nil, List.find?_cons, List.map_append,
    List.map_cons, List.map_nil, List.append_nil, List.nil_append,
    List.cons_append, List.singleton_append, List.length_cons, List.length_nil,
    List.sum_cons, List.sum_nil, List.zip_cons_cons, List.zip_nil_right,
    List.zip_nil_left,
    add_right_inj, self_eq_add_right, add_zero, Nat.add_assoc, sub_sub,
    sub_lt_self_iff, sub_lt_sub_iff_left,
    Nat.reduceAdd, Nat.reduceSub, Nat.reduceMul, Nat.reduceMod,
    Nat.reduceDiv, Nat.reduceLeDiff, Nat.reduceEqDiff, Nat.reduceLT,
    Int.reduceAdd, Int.reduceSub, Int.reduceMul, Int.reduceNeg, Int.reduceLT,
    Int.reduceLE, Int.reduceFDiv, Int.reduceEq,
    String.reduceEq, reduceIte, reduceCtorEq, ne_eq, not_false_eq_true,
    decide_True, decide_False, cond_true, cond_false,
    or_self, or_false, false_or, or_true, true_or, and_self,
    MAX_INPUTS_PER_TX, MAX_OUTPUTS_PER_TX, PER_TX_FEE_SAT,
    Option.some.injEq, Prod.mk.injEq, Scenario.mk.injEq, Edge.mk.injEq,
    Limits.mk.injEq, eq_self_iff_true,
    and_true, true_and, and_false, false_and,
    Nat.cast_ofNat, Nat.cast_one, Nat.cast_zero, M_get_eval, M_set_eval]
/-- A canonical seed outpoint used to instantiate stage evaluations. -/
def seed0 : Outpoint :=
  { txid := 0, vout := 0, value_sat := 100000000, address := 0 }

/-- C6: the linear-chain scenario builders (small_chain_3,
deep_chain_40_full, stress_deep) emit scenarios with expect_truncated
false, but only small_chain_3 lists every constructed chain transaction
id in required_nodes; deep_chain_40_full and stress_deep list exactly
the root, its parent and the first chain transaction, so for chains
longer than three hops the intermediate chain ids are absent. -/
theorem C6_linear_chain_builders
    (st : Node) (u : Outpoint) (rest : List Outpoint)
    (hsh : st.shuffle = fun l => l)
    (hpol : ∀ tx txs mp, st.policy tx txs mp = true)
    (hfr0 : st.txs.find? (fun t => t.txid = st.nextTxid) = none)
    (hfr : ∀ n, st.txs.find? (fun t => t.txid = st.nextTxid + n) = none) :
    (∃ scen pool,
       okValue (g_small_chain (u :: rest) st) = some (scen, pool) ∧
       scen.expect_truncated = false ∧
       (finalNode (g_small_chain (u :: rest) st)).txs.map Tx.txid =
         st.txs.map Tx.txid ++ [st.nextTxid, st.nextTxid + 1, st.nextTxid + 2] ∧
       scen.required_nodes = [st.nextTxid + 2, st.nextTxid + 1, st.nextTxid]) ∧
    (∃ full ltd pool,
       okValue (g_deep_chain (u :: rest) st) = some (full, ltd, pool) ∧
       full.expect_truncated = false ∧
       (finalNode (g_deep_chain (u :: rest) st)).txs.map Tx.txid =
         st.txs.map Tx.txid ++ (List.range 40).map (st.nextTxid + ·) ∧
       full.required_nodes = [st.nextTxid + 39, st.nextTxid + 38, st.nextTxid] ∧
       st.nextTxid + 1 ∉ full.required_nodes) ∧
    (∃ scen pool,
       okValue (g_stress_deep 5 (u :: rest) st) = some (scen, pool) ∧
       scen.expect_truncated = false ∧
       (finalNode (g_stress_deep 5 (u :: rest) st)).txs.map Tx.txid =
         st.txs.map Tx.txid ++ (List.range 5).map (st.nextTxid + ·) ∧
       scen.required_nodes = [st.nextTxid + 4, st.nextTxid + 3, st.nextTxid] ∧
       st.nextTxid + 1 ∉ scen.required_nodes) := by
  obtain ⟨h1v, h1t⟩ := g_small_chain_eval st u rest hsh hpol hfr0 hfr
  obtain ⟨h2v, h2t⟩ := g_deep_chain_eval st u rest hsh hpol hfr0 hfr
  obtain ⟨h3v, h3t⟩ := g_stress_deep_eval st u rest hsh hpol hfr0 hfr
  refine ⟨⟨_, _, h1v, rfl, h1t, rfl⟩,
          ⟨_, _, _, h2v, rfl, h2t, rfl, ?_⟩,
          ⟨_, _, h3v, rfl, h3t, rfl, ?_⟩⟩
  · simp only [List.mem_cons, List.not_mem_nil, or_false]
    omega
  · simp only [List.mem_cons, List.not_mem_nil, or_false]
    omega

/-- C6 witness: the three stage evaluations at the canonical fresh node
with a single seed outpoint. -/
theorem C6_linear_chain_builders_witness :
    (∃ scen pool,
       okValue (g_small_chain [seed0] node0) = some (scen, pool) ∧
       scen.expect_truncated = false ∧
       (finalNode (g_small_chain [seed0] node0)).txs.map Tx.txid =
         node0.txs.map Tx.txid ++ [node0.nextTxid, node0.nextTxid + 1, node0.nextTxid + 2] ∧
       scen.required_nodes = [node0.nextTxid + 2, node0.nextTxid + 1, node0.nextTxid]) ∧
    (∃ full ltd pool,
       okValue (g_deep_chain [seed0] node0) = some (full, ltd, pool) ∧
       full.expect_truncated = false ∧
       (finalNode (g_deep_chain [seed0] node0)).txs.map Tx.txid =
         node0.txs.map Tx.txid ++ (List.range 40).map (node0.nextTxid + ·) ∧
       full.required_nodes = [node0.nextTxid + 39, node0.nextTxid + 38, node0.nextTxid] ∧
       node0.nextTxid + 1 ∉ full.required_nodes) ∧
    (∃ scen pool,
       okValue (g_stress_deep 5 [seed0] node0) = some (scen, pool) ∧
       scen.expect_truncated = false ∧
       (finalNode (g_stress_deep 5 [seed0] node0)).txs.map Tx.txid =
         node0.txs.map Tx.txid ++ (List.range 5).map (node0.nextTxid + ·) ∧
       scen.required_nodes = [node0.nextTxid + 4, node0.nextTxid + 3, node0.nextTxid] ∧
       node0.nextTxid + 1 ∉ scen.required_nodes) :=
  C6_linear_chain_builders node0 seed0 [] rfl (fun _ _ _ => rfl) rfl (fun _ => rfl)

/-- C6 counterexample to the specified property: in the deep_chain_40_full
scenario built from the fresh node, transaction id 1 is one of the forty
constructed chain ids but does not appear in required_nodes, although
expect_truncated is false. -/
theorem C6_deep_chain_missing_required_node :
    ∃ full ltd pool,
      okValue (g_deep_chain [seed0] node0) = some (full, ltd, pool) ∧
      (finalNode (g_deep_chain [seed0] node0)).txs.map Tx.txid = List.range 40 ∧
      1 ∈ List.range 40 ∧
      full.expect_truncated = false ∧
      1 ∉ full.required_nodes := by
  obtain ⟨hv, ht⟩ :=
    g_deep_chain_eval node0 seed0 [] rfl (fun _ _ _ => rfl) rfl (fun _ => rfl)
  refine ⟨_, _, _, hv, ?_, by decide, rfl, by decide⟩
  rw [ht]
  decide

/-- C7: the scenario probing the wide fan-in root under
Limits (max_depth 10, max_nodes 5, max_edges 8192) is
node_limit_truncation: it sets expect_truncated but carries no exact
node or edge count assertion; the exact counts of one node and zero
edges belong to edge_limit_truncation, whose limits are
(max_depth 10, max_nodes 8192, max_edges 10). -/
theorem C7_truncation_scenarios (w : Nat) :
    (g_node_limit w).limits =
      { max_depth := 10, max_nodes := 5, max_edges := 8192 } ∧
    (g_node_limit w).expect_truncated = true ∧
    (g_node_limit w).root_txid = w ∧
    (g_node_limit w).expected_exact_node_count = none ∧
    (g_node_limit w).expected_exact_edge_count = none ∧
    (g_edge_limit w).limits =
      { max_depth := 10, max_nodes := 8192, max_edges := 10 } ∧
    (g_edge_limit w).expect_truncated = true ∧
    (g_edge_limit w).root_txid = w ∧
    (g_edge_limit w).expected_exact_node_count = some 1 ∧
    (g_edge_limit w).expected_exact_edge_count = some 0 :=
  ⟨rfl, rfl, rfl, rfl, rfl, rfl, rfl, rfl, rfl, rfl⟩

/-- C7 counterexample to the specified property: the scenario with the
max_nodes 5 limits does not assert the exact one-node/zero-edge result;
those assertions are absent from node_limit_truncation. -/
theorem C7_node_limit_has_no_exact_counts :
    ¬((g_node_limit 0).expected_exact_node_count = some 1 ∧
      (g_node_limit 0).expected_exact_edge_count = some 0) := by
  decide
/-- C8: the CPFP scenario block broadcasts the parent/child pair and
emits the scenario with both ids while they sit in the mempool, and the
block itself mines nothing; but build_scenarios issues a one-block mine
immediately after the block, so the pair is confirmed (the mempool is
emptied) before the scenario list is ever returned. -/
theorem C8_cpfp_pair_mined_after_emission
    (st : Node) (u : Outpoint) (rest : List Outpoint)
    (hsh : st.shuffle = fun l => l)
    (hpol : ∀ tx txs mp, st.policy tx txs mp = true)
    (hfr0 : st.txs.find? (fun t => t.txid = st.nextTxid) = none)
    (hfr : ∀ n, st.txs.find? (fun t => t.txid = st.nextTxid + n) = none) :
    (okValue (ui_cpfp (u :: rest) st)).map (fun p => p.1.name) =
      some "cpfp_parent_child" ∧
    (okValue (ui_cpfp (u :: rest) st)).map (fun p => p.1.root_txid) =
      some (st.nextTxid + 1) ∧
    (okValue (ui_cpfp (u :: rest) st)).map (fun p => p.1.related_txids) =
      some [st.nextTxid + 1, st.nextTxid] ∧
    (finalNode (ui_cpfp (u :: rest) st)).mempool =
      st.mempool ++ [st.nextTxid, st.nextTxid + 1] ∧
    (finalNode (ui_cpfp (u :: rest) st)).blocks = st.blocks ∧
    (finalNode ((ui_cpfp (u :: rest) >>= fun _ => mine_to_wallet 1) st)).mempool
      = [] ∧
    (finalNode ((ui_cpfp (u :: rest) >>= fun _ => mine_to_wallet 1) st)).blocks
      = st.blocks + 1 := by
  simp only [ui_cpfp, bind, EStateM.bind, pure, EStateM.pure,
    spend_inputs_eval, spendOutsGo, spendNodeOf, spendTxOf_eval, addrOuts,
    liftE, listIdx, listNeg, take_utxo, raise, mine_to_wallet, getnewaddressM,
    generatetoaddress, listSum, okValue, finalNode,
    hsh, hpol, hfr0, hfr, find?_append_none,
    Option.map_some', Option.map_none',
    List.forIn_cons, List.forIn_nil, List.range_succ, List.range_zero,
    List.append_assoc, List.replicate_succ, List.replicate,
    List.get?_nil, List.get?_cons_zero, List.get?_cons_succ,
    List.find?_nil, List.find?_cons, List.map_append,
    List.mem_cons, List.mem_singleton, List.not_mem_nil,
    List.map_cons, List.map_nil, List.append_nil, List.nil_append,
    List.cons_append, List.singleton_append, List.length_cons, List.length_nil,
    List.sum_cons, List.sum_nil, List.zip_cons_cons, List.zip_nil_right,
    List.zip_nil_left,
    add_right_inj, self_eq_add_right, add_zero, Nat.add_assoc, sub_sub,
    sub_lt_self_iff, sub_lt_sub_iff_left,
    Nat.reduceAdd, Nat.reduceSub, Nat.reduceMul, Nat.reduceMod,
    Nat.reduceDiv, Nat.reduceLeDiff, Nat.reduceEqDiff, Nat.reduceLT,
    Int.reduceAdd, Int.reduceSub, Int.reduceMul, Int.reduceNeg, Int.reduceLT,
    Int.reduceLE, Int.reduceFDiv, Int.reduceEq,
    String.reduceEq, reduceIte, reduceCtorEq, ne_eq, not_false_eq_true,
    decide_True, decide_False, cond_true, cond_false,
    or_self, or_false, false_or, or_true, true_or, and_self,
    MAX_INPUTS_PER_TX, MAX_OUTPUTS_PER_TX, PER_TX_FEE_SAT,
    Option.some.injEq, and_true, true_and, and_false, false_and,
    Nat.cast_ofNat, Nat.cast_one, Nat.cast_zero, M_get_eval, M_set_eval]

/-- C8 witness: the CPFP block evaluated at the canonical fresh node. -/
theorem C8_cpfp_pair_mined_after_emission_witness :
    (okValue (ui_cpfp [seed0] node0)).map (fun p => p.1.name) =
      some "cpfp_parent_child" ∧
    (okValue (ui_cpfp [seed0] node0)).map (fun p => p.1.root_txid) =
      some (node0.nextTxid + 1) ∧
    (okValue (ui_cpfp [seed0] node0)).map (fun p => p.1.related_txids) =
      some [node0.nextTxid + 1, node0.nextTxid] ∧
    (finalNode (ui_cpfp [seed0] node0)).mempool =
      node0.mempool ++ [node0.nextTxid, node0.nextTxid + 1] ∧
    (finalNode (ui_cpfp [seed0] node0)).blocks = node0.blocks ∧
    (finalNode ((ui_cpfp [seed0] >>= fun _ => mine_to_wallet 1) node0)).mempool
      = [] ∧
    (finalNode ((ui_cpfp [seed0] >>= fun _ => mine_to_wallet 1) node0)).blocks
      = node0.blocks + 1 :=
  C8_cpfp_pair_mined_after_emission node0 seed0 [] rfl (fun _ _ _ => rfl) rfl
    (fun _ => rfl)

/-- C9: the replacement broadcast is guarded; when the node policy
accepts it, the emitted rbf_replacement scenario narrows label probing
to exactly the replacement id (the original id is probed for no label
fixture), and when the node policy rejects it, the builder does not
abort: it emits the rbf_original_only fallback naming only the original
transaction, with no label narrowing. -/
theorem C9_rbf_guarded_fallback :
    (∀ (st : Node) (u : Outpoint) (rest : List Outpoint),
       (st.shuffle = fun l => l) →
       (∀ tx txs mp, st.policy tx txs mp = true) →
       st.txs.find? (fun t => t.txid = st.nextTxid) = none →
       (∀ n, st.txs.find? (fun t => t.txid = st.nextTxid + n) = none) →
       (okValue (ui_rbf (u :: rest) st)).map (fun p => p.1.name) =
         some "rbf_replacement" ∧
       (okValue (ui_rbf (u :: rest) st)).map (fun p => p.1.related_txids) =
         some [st.nextTxid, st.nextTxid + 1] ∧
       (okValue (ui_rbf (u :: rest) st)).map (fun p => p.1.label_txids) =
         some (some [st.nextTxid + 1]) ∧
       (okValue (ui_rbf (u :: rest) st)).map (fun p => label_probe_txids p.1) =
         some [st.nextTxid + 1] ∧
       ¬ st.nextTxid ∈ [st.nextTxid + 1]) ∧
    (∀ (st : Node) (u : Outpoint) (rest : List Outpoint),
       (st.shuffle = fun l => l) →
       st.txs.find? (fun t => t.txid = st.nextTxid) = none →
       (∀ n, st.txs.find? (fun t => t.txid = st.nextTxid + n) = none) →
       st.policy
         { txid := st.nextTxid, inputs := [(u.txid, u.vout)],
           outputs := [(some st.nextAddr, u.value_sat - 5000)] }
         st.txs st.mempool = true →
       st.policy
         { txid := st.nextTxid + 1, inputs := [(u.txid, u.vout)],
           outputs := [(some (st.nextAddr + 1), u.value_sat - 25000)] }
         (st.txs ++
           [{ txid := st.nextTxid, inputs := [(u.txid, u.vout)],
              outputs := [(some st.nextAddr, u.value_sat - 5000)] }])
         (st.mempool ++ [st.nextTxid]) = false →
       (okValue (ui_rbf (u :: rest) st)).isSome = true ∧
       (okValue (ui_rbf (u :: rest) st)).map (fun p => p.1.name) =
         some "rbf_original_only" ∧
       (okValue (ui_rbf (u :: rest) st)).map (fun p => p.1.root_txid) =
         some st.nextTxid ∧
       (okValue (ui_rbf (u :: rest) st)).map (fun p => p.1.related_txids) =
         some [st.nextTxid] ∧
       (okValue (ui_rbf (u :: rest) st)).map (fun p => p.1.label_txids) =
         some none) := by
  constructor
  · intro st u rest hsh hpol hfr0 hfr
    simp only [ui_rbf, send_raw_with_outputs, sendrawtransaction,
      label_probe_txids,
      bind, EStateM.bind, pure, EStateM.pure, EStateM.run,
      spend_inputs_eval, spendOutsGo, spendNodeOf, spendTxOf_eval, addrOuts,
      liftE, listIdx, listNeg, take_utxo, raise, mine_to_wallet, getnewaddressM,
      generatetoaddress, listSum, okValue, finalNode,
      hsh, hpol, hfr0, hfr, find?_append_none,
      Option.map_some', Option.map_none', Option.isSome_some,
      List.forIn_cons, List.forIn_nil, List.range_succ, List.range_zero,
      List.append_assoc, List.replicate_succ, List.replicate,
      List.get?_nil, List.get?_cons_zero, List.get?_cons_succ,
      List.find?_nil, List.find?_cons, List.map_append,
      List.mem_cons, List.mem_singleton, List.not_mem_nil,
      List.map_cons, List.map_nil, List.append_nil, List.nil_append,
      List.cons_append, List.singleton_append, List.length_cons,
      List.length_nil, List.sum_cons, List.sum_nil, List.zip_cons_cons,
      List.zip_nil_right, List.zip_nil_left,
      add_right_inj, self_eq_add_right, add_zero, Nat.add_assoc, sub_sub,
      sub_lt_self_iff, sub_lt_sub_iff_left,
      Nat.reduceAdd, Nat.reduceSub, Nat.reduceMul, Nat.reduceMod,
      Nat.reduceDiv, Nat.reduceLeDiff, Nat.reduceEqDiff, Nat.reduceLT,
      Int.reduceAdd, Int.reduceSub, Int.reduceMul, Int.reduceNeg, Int.reduceLT,
      Int.reduceLE, Int.reduceFDiv, Int.reduceEq,
      String.reduceEq, reduceIte, reduceCtorEq, ne_eq, not_false_eq_true,
      decide_True, decide_False, cond_true, cond_false,
      or_self, or_false, false_or, or_true, true_or, and_self,
      MAX_INPUTS_PER_TX, MAX_OUTPUTS_PER_TX, PER_TX_FEE_SAT,
      Option.some.injEq, and_true, true_and, and_false, false_and,
      Nat.cast_ofNat, Nat.cast_one, Nat.cast_zero, M_get_eval, M_set_eval]
  · intro st u rest hsh hfr0 hfr hpol1 hpol2
    simp only [ui_rbf, send_raw_with_outputs, sendrawtransaction,
      label_probe_txids,
      bind, EStateM.bind, pure, EStateM.pure, EStateM.run,
      spend_inputs_eval, spendOutsGo, spendNodeOf, spendTxOf_eval, addrOuts,
      liftE, listIdx, listNeg, take_utxo, raise, mine_to_wallet, getnewaddressM,
      generatetoaddress, listSum, okValue, finalNode,
      hsh, hpol1, hpol2, hfr0, hfr, find?_append_none,
      Option.map_some', Option.map_none', Option.isSome_some,
      List.forIn_cons, List.forIn_nil, List.range_succ, List.range_zero,
      List.append_assoc, List.replicate_succ, List.replicate,
      List.get?_nil, List.get?_cons_zero, List.get?_cons_succ,
      List.find?_nil, List.find?_cons, List.map_append,
      List.mem_cons, List.mem_singleton, List.not_mem_nil,
      List.map_cons, List.map_nil, List.append_nil, List.nil_append,
      List.cons_append, List.singleton_append, List.length_cons,
      List.length_nil, List.sum_cons, List.sum_nil, List.zip_cons_cons,
      List.zip_nil_right, List.zip_nil_left,
      add_right_inj, self_eq_add_right, add_zero, Nat.add_assoc, sub_sub,
      sub_lt_self_iff, sub_lt_sub_iff_left,
      Nat.reduceAdd, Nat.reduceSub, Nat.reduceMul, Nat.reduceMod,
      Nat.reduceDiv, Nat.reduceLeDiff, Nat.reduceEqDiff, Nat.reduceLT,
      Int.reduceAdd, Int.reduceSub, Int.reduceMul, Int.reduceNeg, Int.reduceLT,
      Int.reduceLE, Int.reduceFDiv, Int.reduceEq,
      String.reduceEq, reduceIte, reduceCtorEq, ne_eq, not_false_eq_true,
      decide_True, decide_False, cond_true, cond_false,
      or_self, or_false, false_or, or_true, true_or, and_self,
      MAX_INPUTS_PER_TX, MAX_OUTPUTS_PER_TX, PER_TX_FEE_SAT,
      Option.some.injEq, and_true, true_and, and_false, false_and,
      Nat.cast_ofNat, Nat.cast_one, Nat.cast_zero, M_get_eval, M_set_eval]

/-- C9 witness: the accepting case at the canonical fresh node, and the
rejecting case at the fresh node carrying the conflict-rejecting mempool
policy. -/
theorem C9_rbf_guarded_fallback_witness :
    ((okValue (ui_rbf [seed0] node0)).map (fun p => p.1.name) =
       some "rbf_replacement" ∧
     (okValue (ui_rbf [seed0] node0)).map (fun p => p.1.related_txids) =
       some [node0.nextTxid, node0.nextTxid + 1] ∧
     (okValue (ui_rbf [seed0] node0)).map (fun p => p.1.label_txids) =
       some (some [node0.nextTxid + 1]) ∧
     (okValue (ui_rbf [seed0] node0)).map (fun p => label_probe_txids p.1) =
       some [node0.nextTxid + 1] ∧
     ¬ node0.nextTxid ∈ [node0.nextTxid + 1]) ∧
    ((okValue (ui_rbf [seed0] nodeNoRbf)).isSome = true ∧
     (okValue (ui_rbf [seed0] nodeNoRbf)).map (fun p => p.1.name) =
       some "rbf_original_only" ∧
     (okValue (ui_rbf [seed0] nodeNoRbf)).map (fun p => p.1.root_txid) =
       some nodeNoRbf.nextTxid ∧
     (okValue (ui_rbf [seed0] nodeNoRbf)).map (fun p => p.1.related_txids) =
       some [nodeNoRbf.nextTxid] ∧
     (okValue (ui_rbf [seed0] nodeNoRbf)).map (fun p => p.1.label_txids) =
       some none) :=
  ⟨C9_rbf_guarded_fallback.1 node0 seed0 [] rfl (fun _ _ _ => rfl) rfl
     (fun _ => rfl),
   C9_rbf_guarded_fallback.2 nodeNoRbf seed0 [] rfl rfl (fun _ => rfl)
     (by decide) (by decide)⟩
/-- A second canonical seed outpoint, distinct from seed0. -/
def seed1 : Outpoint :=
  { txid := 0, vout := 1, value_sat := 100000000, address := 1 }

/-- Helper: every outpoint drawn by a draw sequence, and every outpoint of
the remaining pool, comes from the original pool. -/
theorem draws_mem {n : Nat} :
    ∀ {pool drawn fin : List Outpoint},
      draws pool n = .ok (drawn, fin) →
      (∀ x ∈ drawn, x ∈ pool) ∧ (∀ x ∈ fin, x ∈ pool) := by
  induction n with
  | zero =>
    intro pool drawn fin h
    simp only [draws, Except.ok.injEq, Prod.mk.injEq] at h
    obtain ⟨h1, h2⟩ := h
    subst h1; subst h2
    exact ⟨fun x hx => absurd hx (List.not_mem_nil x), fun x hx => hx⟩
  | succ n ih =>
    intro pool drawn fin h
    match pool with
    | [] =>
      simp only [draws, take_utxo] at h
      exact absurd h (by simp)
    | u :: rest =>
      simp only [draws, take_utxo] at h
      match hd : draws rest n with
      | .error e => rw [hd] at h; exact absurd h (by simp)
      | .ok (xs, fin2) =>
        rw [hd] at h
        simp only [Except.ok.injEq, Prod.mk.injEq] at h
        obtain ⟨h1, h2⟩ := h
        subst h1; subst h2
        obtain ⟨hdrawn, hfin⟩ := ih hd
        refine ⟨fun x hx => ?_, fun x hx => List.mem_cons_of_mem u (hfin x hx)⟩
        rcases List.mem_cons.mp hx with hx | hx
        · exact hx ▸ List.mem_cons_self u rest
        · exact List.mem_cons_of_mem u (hdrawn x hx)

/-- C4: take_utxo on the empty pool raises the fatal error; a successful
take removes and returns the head of the pool (the oldest funded
outpoint, FIFO); two consecutive successful draws from a duplicate-free
pool return distinct outpoints; and a draw sequence from a
duplicate-free pool returns pairwise-distinct outpoints none of which
remain in the pool afterwards. -/
theorem C4_take_utxo_fifo :
    (take_utxo ([] : List Outpoint) =
       .error "not enough funded UTXOs for scenario generation") ∧
    (∀ (u : Outpoint) (rest : List Outpoint),
       take_utxo (u :: rest) = .ok (u, rest)) ∧
    (∀ (pool r1 r2 : List Outpoint) (u1 u2 : Outpoint),
       pool.Nodup →
       take_utxo pool = .ok (u1, r1) →
       take_utxo r1 = .ok (u2, r2) →
       u1 ≠ u2) ∧
    (∀ (n : Nat) (pool drawn fin : List Outpoint),
       pool.Nodup →
       draws pool n = .ok (drawn, fin) →
       drawn.Nodup ∧ ∀ x ∈ drawn, x ∉ fin) := by
  refine ⟨rfl, fun u rest => rfl, ?_, ?_⟩
  · intro pool r1 r2 u1 u2 hnd h1 h2
    match pool with
    | [] => exact absurd h1 (by simp [take_utxo])
    | a :: rest =>
      simp only [take_utxo, Except.ok.injEq, Prod.mk.injEq] at h1
      obtain ⟨ha, hr⟩ := h1
      subst ha; subst hr
      match rest with
      | [] => exact absurd h2 (by simp [take_utxo])
      | b :: rest2 =>
        simp only [take_utxo, Except.ok.injEq, Prod.mk.injEq] at h2
        obtain ⟨hb, _⟩ := h2
        subst hb
        intro hequ
        exact (List.nodup_cons.mp hnd).1
          (by rw [hequ]; exact List.mem_cons_self b rest2)
  · intro n
    induction n with
    | zero =>
      intro pool drawn fin hnd h
      simp only [draws, Except.ok.injEq, Prod.mk.injEq] at h
      obtain ⟨h1, h2⟩ := h
      subst h1; subst h2
      exact ⟨List.nodup_nil, fun x hx => absurd hx (List.not_mem_nil x)⟩
    | succ n ih =>
      intro pool drawn fin hnd h
      match pool with
      | [] =>
        simp only [draws, take_utxo] at h
        exact absurd h (by simp)
      | u :: rest =>
        simp only [draws, take_utxo] at h
        match hd : draws rest n with
        | .error e => rw [hd] at h; exact absurd h (by simp)
        | .ok (xs, fin2) =>
          rw [hd] at h
          simp only [Except.ok.injEq, Prod.mk.injEq] at h
          obtain ⟨h1, h2⟩ := h
          subst h1; subst h2
          obtain ⟨hu, hrest⟩ := List.nodup_cons.mp hnd
          obtain ⟨hxs, hsep⟩ := ih rest xs fin2 hrest hd
          obtain ⟨hdrawn, hfin⟩ := draws_mem hd
          refine ⟨List.nodup_cons.mpr ⟨fun hx => hu (hdrawn u hx), hxs⟩, ?_⟩
          intro x hx
          rcases List.mem_cons.mp hx with hx | hx
          · exact hx ▸ fun hmem => hu (hfin u hmem)
          · exact hsep x hx

/-- C4 witness: the empty-pool error, a FIFO take, distinctness of two
consecutive draws, and a full two-element draw sequence, at concrete
pools built from seed0 and seed1. -/
theorem C4_take_utxo_fifo_witness :
    (take_utxo ([] : List Outpoint) =
       .error "not enough funded UTXOs for scenario generation") ∧
    take_utxo [seed0, seed1] = .ok (seed0, [seed1]) ∧
    seed0 ≠ seed1 ∧
    (List.Nodup [seed0, seed1] ∧
     [seed0, seed1].Nodup ∧ ∀ x ∈ [seed0, seed1], x ∉ ([] : List Outpoint)) :=
  ⟨C4_take_utxo_fifo.1,
   C4_take_utxo_fifo.2.1 seed0 [seed1],
   C4_take_utxo_fifo.2.2.1 [seed0, seed1] [seed1] [] seed0 seed1 (by decide)
     rfl rfl,
   by decide,
   C4_take_utxo_fifo.2.2.2 2 [seed0, seed1] [seed0, seed1] [] (by decide) rfl⟩

/-- C10: the output-value emptiness is indeed not checked by
spend_inputs, but an empty output list passes the precondition checks
only when the input sum is strictly positive: with a fresh, identity
ordering, accepting state the zero-output spend succeeds and burns the
whole input sum as fee, while an input set summing to zero (not
covered by the specified reasoning) is rejected by the
output-total-versus-input-total check. -/
theorem C10_zero_output_spend
    (st : Node) (inputs : List Outpoint)
    (hsh : st.shuffle = fun l => l)
    (hfind : st.txs.find? (fun t => t.txid = st.nextTxid) = none)
    (hpol : ∀ tx txs mp, st.policy tx txs mp = true)
    (hne : inputs ≠ [])
    (hni : inputs.length ≤ MAX_INPUTS_PER_TX)
    (hpos : 0 < (inputs.map Outpoint.value_sat).sum) :
    spend_inputs inputs [] st =
      .ok (st.nextTxid, []) (spendNodeOf st inputs []) :=
  spend_inputs_eval hsh hfind (hpol _ _ _) hne hni (by simp) (by
    simpa using hpos)

/-- C10 witness: the zero-output spend of a single positive-value
outpoint from the canonical fresh node. -/
theorem C10_zero_output_spend_witness :
    spend_inputs [seed0] [] node0 =
      .ok (node0.nextTxid, []) (spendNodeOf node0 [seed0] []) :=
  C10_zero_output_spend node0 [seed0] rfl rfl (fun _ _ _ => rfl)
    (by decide) (by decide) (by decide)

/-- C10 counterexample to the specified reasoning: with a zero-value
input the output sum (zero) is not strictly below the input sum, so the
zero-output call is rejected by the precondition checks even though the
input list is non-empty. -/
theorem C10_zero_value_input_rejected :
    spend_inputs [{ txid := 0, vout := 0, value_sat := 0, address := 0 }]
      [] node0 =
      .error "output_sum must be less than input_sum" node0 := rfl
/-- Helper: find? misses a singleton whose transaction id differs. -/
theorem find?_singleton_ne {tx : Tx} {m : Nat} (h : tx.txid ≠ m) :
    List.find? (fun t => t.txid = m) [tx] = none := by
  have hd : (decide (tx.txid = m)) = false := decide_eq_false h
  simp only [List.find?_cons, List.find?_nil, hd]

/-- Helper: a spend resolution returns one outpoint per requested value. -/
theorem spendOutsGo_length (t : Nat) :
    ∀ (vals : List Int) (a i : Nat), (spendOutsGo t a i vals).length = vals.length := by
  intro vals
  induction vals with
  | nil => intro a i; rfl
  | cons v rest ih =>
    intro a i
    simp only [spendOutsGo, List.length_cons, ih]

/-- Helper: the resolved outpoints carry the requested values in request
order. -/
theorem spendOutsGo_map_value (t : Nat) :
    ∀ (vals : List Int) (a i : Nat),
      (spendOutsGo t a i vals).map Outpoint.value_sat = vals := by
  intro vals
  induction vals with
  | nil => intro a i; rfl
  | cons v rest ih =>
    intro a i
    simp only [spendOutsGo, List.map_cons, ih]

/-- Helper: the resolved outpoints carry the consecutively generated fresh
addresses in generation order. -/
theorem spendOutsGo_map_address (t : Nat) :
    ∀ (vals : List Int) (a i : Nat),
      (spendOutsGo t a i vals).map Outpoint.address =
        (List.range vals.length).map (a + ·) := by
  intro vals
  induction vals with
  | nil => intro a i; rfl
  | cons v rest ih =>
    intro a i
    simp only [spendOutsGo, List.map_cons, List.length_cons, ih,
      List.range_succ_eq_map, List.map_map, Nat.add_zero]
    congr 1
    apply List.map_congr_left
    intro x _
    simp only [Function.comp_apply]
    omega

/-- Helper: every resolved outpoint names the broadcast transaction. -/
theorem spendOutsGo_map_txid (t : Nat) :
    ∀ (vals : List Int) (a i : Nat),
      (spendOutsGo t a i vals).map Outpoint.txid =
        List.replicate vals.length t := by
  intro vals
  induction vals with
  | nil => intro a i; rfl
  | cons v rest ih =>
    intro a i
    simp only [spendOutsGo, List.map_cons, List.length_cons, ih,
      List.replicate_succ]

/-- C2: with a well-formed node (identity output ordering, fresh
transaction id, accepting mempool policy) spend_inputs raises exactly
when the input list is empty, the input count exceeds
MAX_INPUTS_PER_TX, the output count exceeds MAX_OUTPUTS_PER_TX, or the
output total is not strictly below the input total; every such
rejection returns the entering state unchanged (no node command has
taken effect), and otherwise the call succeeds with the broadcast
closed form. -/
theorem C2_spend_guard_iff (st : Node) (inputs : List Outpoint) (vals : List Int)
    (hsh : st.shuffle = fun l => l)
    (hfind : st.txs.find? (fun t => t.txid = st.nextTxid) = none)
    (hpol : ∀ tx txs mp, st.policy tx txs mp = true) :
    ((inputs = [] ∨ MAX_INPUTS_PER_TX < inputs.length ∨
      MAX_OUTPUTS_PER_TX < vals.length ∨
      (inputs.map Outpoint.value_sat).sum ≤ vals.sum) →
      ∃ e, spend_inputs inputs vals st = .error e st) ∧
    (inputs ≠ [] → inputs.length ≤ MAX_INPUTS_PER_TX →
     vals.length ≤ MAX_OUTPUTS_PER_TX →
     vals.sum < (inputs.map Outpoint.value_sat).sum →
      spend_inputs inputs vals st =
        .ok (st.nextTxid, spendOutsGo st.nextTxid st.nextAddr 0 vals)
          (spendNodeOf st inputs vals)) := by
  constructor
  · intro h
    unfold spend_inputs
    by_cases h1 : inputs = []
    · rw [if_pos h1]; exact ⟨_, rfl⟩
    · rw [if_neg h1]
      by_cases h2 : MAX_INPUTS_PER_TX < inputs.length
      · rw [if_pos h2]; exact ⟨_, rfl⟩
      · rw [if_neg h2]
        by_cases h3 : MAX_OUTPUTS_PER_TX < vals.length
        · rw [if_pos h3]; exact ⟨_, rfl⟩
        · rw [if_neg h3]
          have h4 : (inputs.map Outpoint.value_sat).sum ≤ vals.sum := by
            rcases h with h | h | h | h
            · exact absurd h h1
            · exact absurd h h2
            · exact absurd h h3
            · exact h
          rw [if_pos h4]
          exact ⟨_, rfl⟩
  · intro hne hni hno hsum
    exact spend_inputs_eval hsh hfind (hpol _ _ _) hne hni hno hsum

/-- C2 witness: the empty-input rejection leaves the canonical fresh node
unchanged, and a guarded single-input spend succeeds. -/
theorem C2_spend_guard_iff_witness :
    (∃ e, spend_inputs [] [] node0 = .error e node0) ∧
    spend_inputs [seed0] [1000] node0 =
      .ok (node0.nextTxid, spendOutsGo node0.nextTxid node0.nextAddr 0 [1000])
        (spendNodeOf node0 [seed0] [1000]) :=
  ⟨(C2_spend_guard_iff node0 [] [] rfl rfl (fun _ _ _ => rfl)).1 (Or.inl rfl),
   (C2_spend_guard_iff node0 [seed0] [1000] rfl rfl (fun _ _ _ => rfl)).2
     (by decide) (by decide) (by decide) (by decide)⟩

/-- C3: a successful spend_inputs call returns exactly one Outpoint per
requested output value, in request order: the i-th outpoint carries the
i-th value, the i-th freshly generated address (consecutive from the
state's next address), and the id of the broadcast transaction. -/
theorem C3_spend_postcondition (st : Node) (inputs : List Outpoint)
    (vals : List Int)
    (hsh : st.shuffle = fun l => l)
    (hfind : st.txs.find? (fun t => t.txid = st.nextTxid) = none)
    (hpol : ∀ tx txs mp, st.policy tx txs mp = true)
    (hne : inputs ≠ [])
    (hni : inputs.length ≤ MAX_INPUTS_PER_TX)
    (hno : vals.length ≤ MAX_OUTPUTS_PER_TX)
    (hsum : vals.sum < (inputs.map Outpoint.value_sat).sum) :
    ∃ outs stOut,
      spend_inputs inputs vals st = .ok (st.nextTxid, outs) stOut ∧
      outs.length = vals.length ∧
      outs.map Outpoint.value_sat = vals ∧
      outs.map Outpoint.address =
        (List.range vals.length).map (st.nextAddr + ·) ∧
      outs.map Outpoint.txid = List.replicate vals.length st.nextTxid :=
  ⟨spendOutsGo st.nextTxid st.nextAddr 0 vals, spendNodeOf st inputs vals,
   spend_inputs_eval hsh hfind (hpol _ _ _) hne hni hno hsum,
   spendOutsGo_length st.nextTxid vals st.nextAddr 0,
   spendOutsGo_map_value st.nextTxid vals st.nextAddr 0,
   spendOutsGo_map_address st.nextTxid vals st.nextAddr 0,
   spendOutsGo_map_txid st.nextTxid vals st.nextAddr 0⟩

/-- C3 witness: a two-output spend from the canonical fresh node. -/
theorem C3_spend_postcondition_witness :
    ∃ outs stOut,
      spend_inputs [seed0] [40000000, 59999000] node0 =
        .ok (node0.nextTxid, outs) stOut ∧
      outs.length = 2 ∧
      outs.map Outpoint.value_sat = [40000000, 59999000] ∧
      outs.map Outpoint.address = (List.range 2).map (node0.nextAddr + ·) ∧
      outs.map Outpoint.txid = List.replicate 2 node0.nextTxid :=
  C3_spend_postcondition node0 [seed0] [40000000, 59999000] rfl rfl
    (fun _ _ _ => rfl) (by decide) (by decide) (by decide) (by decide)

/-- Closed-form success of the funding loop: with a well-formed entering
state and fuel at least the requested count, fund_go succeeds, returns
one outpoint of the fixed value per requested unit with consecutively
generated addresses, and performs one payment transaction and one mined
block per batch of min 80 remaining. -/
theorem fund_go_spec (v : Int) :
    ∀ (fuel remaining : Nat) (st : Node),
      remaining ≤ fuel →
      (st.shuffle = fun l => l) →
      (∀ n, st.txs.find? (fun t => t.txid = st.nextTxid + n) = none) →
      ∃ outs stOut,
        fund_go v fuel remaining st = .ok outs stOut ∧
        outs.length = remaining ∧
        (∀ o ∈ outs, o.value_sat = v) ∧
        outs.map Outpoint.address =
          (List.range remaining).map (st.nextAddr + ·) ∧
        stOut.blocks = st.blocks + (remaining + 79) / 80 ∧
        stOut.txs.length = st.txs.length + (remaining + 79) / 80 := by
  intro fuel
  induction fuel with
  | zero =>
    intro remaining st hle hsh hfr
    have h0 : remaining = 0 := Nat.le_zero.mp hle
    subst h0
    refine ⟨[], st, rfl, rfl, ?_, rfl, ?_, ?_⟩
    · intro o ho
      exact absurd ho (List.not_mem_nil o)
    · omega
    · omega
  | succ fuel ih =>
    intro remaining st hle hsh hfr
    by_cases hr : remaining = 0
    · subst hr
      refine ⟨[], st, rfl, rfl, ?_, rfl, ?_, ?_⟩
      · intro o ho
        exact absurd ho (List.not_mem_nil o)
      · omega
      · omega
    · have hfind0 : st.txs.find? (fun t => t.txid = st.nextTxid) = none := by
        simpa using hfr 0
      rw [fund_go_succ_eval hr hsh hfind0]
      set b := min 80 remaining with hb
      have hb1 : 1 ≤ b := by omega
      have hble : b ≤ remaining := by omega
      have hrec : remaining - b ≤ fuel := by omega
      have hsh1 : (fundBatchNode st b v).shuffle = fun l => l := by
        rw [fundBatchNode_shuffle]; exact hsh
      have hfr1 : ∀ n, (fundBatchNode st b v).txs.find?
          (fun t => t.txid = (fundBatchNode st b v).nextTxid + n) = none := by
        intro n
        rw [fundBatchNode_txs, fundBatchNode_nextTxid]
        apply find?_append_none
        · simpa [Nat.add_assoc] using hfr (1 + n)
        · exact find?_singleton_ne (by rw [sendmanyTxOf_txid]; omega)
      obtain ⟨rest, stOut, heq, hlen, hval, haddr, hblocks, htxs⟩ :=
        ih (remaining - b) (fundBatchNode st b v) hrec hsh1 hfr1
      rw [heq]
      refine ⟨_, stOut, rfl, ?_, ?_, ?_, ?_, ?_⟩
      · rw [List.length_append, spendOutsGo_length, List.length_replicate,
          hlen]
        omega
      · intro o ho
        rcases List.mem_append.mp ho with ho | ho
        · have : o.value_sat ∈ (spendOutsGo st.nextTxid st.nextAddr 0
              (List.replicate b v)).map Outpoint.value_sat :=
            List.mem_map_of_mem Outpoint.value_sat ho
          rw [spendOutsGo_map_value] at this
          exact List.eq_of_mem_replicate this
        · exact hval o ho
      · have hsplit : remaining = b + (remaining - b) := by omega
        have hr2 : (List.range remaining).map (st.nextAddr + ·) =
            (List.range b).map (st.nextAddr + ·) ++
              (List.range (remaining - b)).map (fun x => st.nextAddr + b + x) := by
          conv_lhs => rw [hsplit]
          rw [List.range_add, List.map_append, List.map_map]
          congr 1
          apply List.map_congr_left
          intro x _
          simp only [Function.comp_apply]
          omega
        rw [List.map_append, spendOutsGo_map_address, haddr,
          fundBatchNode_nextAddr, List.length_replicate, hr2]
      · rw [hblocks, fundBatchNode_blocks]
        omega
      · rw [htxs, fundBatchNode_txs, List.length_append,
          List.length_singleton]
        omega

/-- C5: fund_wallet_utxos processes the request in batches of
min 80 remaining (80 is strictly below the 100-output ceiling), issues
one multi-output payment and mines exactly one confirmation block per
batch (ceil(count/80) of each in total), and returns exactly count
outpoints of the fixed requested value at consecutively generated fresh
addresses. -/
theorem C5_fund_wallet_batches (v : Int) (count : Nat) (st : Node)
    (hc : 1 ≤ count)
    (hsh : st.shuffle = fun l => l)
    (hfr : ∀ n, st.txs.find? (fun t => t.txid = st.nextTxid + n) = none) :
    (80 : Nat) < MAX_OUTPUTS_PER_TX ∧
    ∃ outs stOut,
      fund_wallet_utxos count v st = .ok outs stOut ∧
      outs.length = count ∧
      (∀ o ∈ outs, o.value_sat = v) ∧
      outs.map Outpoint.address = (List.range count).map (st.nextAddr + ·) ∧
      stOut.blocks = st.blocks + (count + 79) / 80 ∧
      stOut.txs.length = st.txs.length + (count + 79) / 80 := by
  refine ⟨by decide, ?_⟩
  have h := fund_go_spec v count count st (Nat.le_refl count) hsh hfr
  exact h

/-- C5 witness: funding 85 outpoints from the canonical fresh node takes
two batches (80 and 5): two payment transactions and two mined blocks. -/
theorem C5_fund_wallet_batches_witness :
    (80 : Nat) < MAX_OUTPUTS_PER_TX ∧
    ∃ outs stOut,
      fund_wallet_utxos 85 100000000 node0 = .ok outs stOut ∧
      outs.length = 85 ∧
      (∀ o ∈ outs, o.value_sat = 100000000) ∧
      outs.map Outpoint.address = (List.range 85).map (node0.nextAddr + ·) ∧
      stOut.blocks = node0.blocks + (85 + 79) / 80 ∧
      stOut.txs.length = node0.txs.length + (85 + 79) / 80 :=
  C5_fund_wallet_batches 100000000 85 node0 (by decide) rfl (fun _ => rfl)
/-- Helper: listSum distributes over append. -/
theorem listSum_append (a b : List Outpoint) :
    listSum (a ++ b) = listSum a + listSum b := by
  unfold listSum
  rw [List.map_append, List.sum_append]

/-- Helper: the chunk groups concatenate back to the original list. -/
theorem chunkedGo_flatten (size : Nat) (hs : 0 < size) :
    ∀ (fuel : Nat) (items : List Outpoint), items.length ≤ fuel →
      (chunkedGo size fuel items).flatten = items := by
  intro fuel
  induction fuel with
  | zero =>
    intro items hle
    have h0 : items = [] := List.eq_nil_of_length_eq_zero (by omega)
    subst h0
    rfl
  | succ fuel ih =>
    intro items hle
    match items with
    | [] => rfl
    | x :: xs =>
      simp only [chunkedGo, List.flatten_cons]
      rw [ih ((x :: xs).drop size)
        (by simp only [List.length_drop, List.length_cons] at hle ⊢; omega)]
      exact List.take_append_drop size (x :: xs)

/-- Helper: every chunk group is non-empty and at most `size` long. -/
theorem chunkedGo_mem (size : Nat) (hs : 0 < size) :
    ∀ (fuel : Nat) (items : List Outpoint) (g : List Outpoint),
      g ∈ chunkedGo size fuel items → g ≠ [] ∧ g.length ≤ size := by
  intro fuel
  induction fuel with
  | zero =>
    intro items g hg
    match items with
    | [] => exact absurd hg (List.not_mem_nil g)
    | x :: xs => exact absurd hg (List.not_mem_nil g)
  | succ fuel ih =>
    intro items g hg
    match items with
    | [] => exact absurd hg (List.not_mem_nil g)
    | x :: xs =>
      simp only [chunkedGo] at hg
      rcases List.mem_cons.mp hg with hg | hg
      · subst hg
        constructor
        · simp [List.take_eq_nil_iff, hs]
          omega
        · simp [List.length_take]
      · exact ih _ g hg

/-- Helper: the sum of the group sums is the sum of the original list. -/
theorem listSum_flatten :
    ∀ (gs : List (List Outpoint)),
      (gs.map listSum).sum = listSum gs.flatten := by
  intro gs
  induction gs with
  | nil => rfl
  | cons g rest ih =>
    simp only [List.map_cons, List.sum_cons, List.flatten_cons,
      listSum_append, ih]
/-- Closed-form success of one consolidation round: each group (non-empty,
at most the input ceiling) is compressed to a single outpoint carrying the
group sum minus the flat fee; the round appends one transaction per group,
mines nothing, and preserves the node hygiene. -/
theorem spend_groups_spec :
    ∀ (groups : List (List Outpoint)) (st : Node),
      (∀ g ∈ groups, g ≠ [] ∧ g.length ≤ MAX_INPUTS_PER_TX) →
      (st.shuffle = fun l => l) →
      (∀ tx txs mp, st.policy tx txs mp = true) →
      (∀ n, st.txs.find? (fun t => t.txid = st.nextTxid + n) = none) →
      ∃ outs stOut,
        spend_groups groups st = .ok outs stOut ∧
        outs.length = groups.length ∧
        listSum outs = (groups.map listSum).sum - 1000 * (groups.length : Int) ∧
        stOut.blocks = st.blocks ∧
        stOut.txs.length = st.txs.length + groups.length ∧
        stOut.shuffle = st.shuffle ∧
        stOut.policy = st.policy ∧
        (∀ n, stOut.txs.find? (fun t => t.txid = stOut.nextTxid + n) = none) := by
  intro groups
  induction groups with
  | nil =>
    intro st hg hsh hpol hfr
    exact ⟨[], st, rfl, rfl, by simp [listSum], rfl, by simp, rfl, rfl, hfr⟩
  | cons g rest ih =>
    intro st hg hsh hpol hfr
    obtain ⟨hgne, hglen⟩ := hg g (List.mem_cons_self g rest)
    have hfind0 : st.txs.find? (fun t => t.txid = st.nextTxid) = none := by
      simpa using hfr 0
    have hsum : [listSum g - 1000].sum < (g.map Outpoint.value_sat).sum := by
      simp only [List.sum_cons, List.sum_nil, add_zero]
      have : (g.map Outpoint.value_sat).sum = listSum g := rfl
      rw [this]
      omega
    have hone := spend_inputs_eval hsh hfind0 (hpol _ _ _) hgne hglen
      (by simp [MAX_OUTPUTS_PER_TX]) hsum
    have hsh1 : (spendNodeOf st g [listSum g - 1000]).shuffle = fun l => l := by
      rw [spendNodeOf_shuffle]; exact hsh
    have hpol1 : ∀ tx txs mp,
        (spendNodeOf st g [listSum g - 1000]).policy tx txs mp = true := by
      intro tx txs mp
      rw [spendNodeOf_policy]
      exact hpol tx txs mp
    have hfr1 : ∀ n, (spendNodeOf st g [listSum g - 1000]).txs.find?
        (fun t => t.txid =
          (spendNodeOf st g [listSum g - 1000]).nextTxid + n) = none := by
      intro n
      rw [spendNodeOf_txs, spendNodeOf_nextTxid]
      apply find?_append_none
      · simpa [Nat.add_assoc] using hfr (1 + n)
      · exact find?_singleton_ne (by rw [spendTxOf_txid]; omega)
    obtain ⟨outs, stOut, heq, hlen, hsumo, hblocks, htxs, hshuf, hpolf, hfrf⟩ :=
      ih (spendNodeOf st g [listSum g - 1000]) (fun g2 hg2 =>
        hg g2 (List.mem_cons_of_mem g hg2)) hsh1 hpol1 hfr1
    refine ⟨spendOutsGo st.nextTxid st.nextAddr 0 [listSum g - 1000] ++ outs,
      stOut, ?_, ?_, ?_, ?_, ?_, ?_, ?_, hfrf⟩
    · simp only [spend_groups, PER_TX_FEE_SAT, hone, heq]
    · rw [List.length_append, hlen, spendOutsGo_length]
      simp only [List.length_cons, List.length_nil]
      omega
    · rw [listSum_append, hsumo]
      have hsingle : listSum (spendOutsGo st.nextTxid st.nextAddr 0
          [listSum g - 1000]) = listSum g - 1000 := by
        simp [spendOutsGo, listSum]
      rw [hsingle]
      simp only [List.map_cons, List.sum_cons, List.length_cons]
      push_cast
      ring
    · rw [hblocks, spendNodeOf_blocks]
    · rw [htxs, spendNodeOf_txs, List.length_append, List.length_singleton,
        List.length_cons]
      omega
    · rw [hshuf, spendNodeOf_shuffle]
    · rw [hpolf, spendNodeOf_policy]
/-- Number of while-loop iterations of the consolidation compressor on an
input of the given size (one mined block per iteration); fuel-recursive
with the same fuel discipline as compress_loop. -/
def loopRoundsGo : Nat → Nat → Nat
  | 0, _ => 0
  | fuel + 1, n => if n ≤ 100 then 0 else loopRoundsGo fuel ((n + 99) / 100) + 1

/-- Number of merge transactions the while loop broadcasts on an input of
the given size (one per chunk group per iteration). -/
def loopTxsGo : Nat → Nat → Nat
  | 0, _ => 0
  | fuel + 1, n => if n ≤ 100 then 0 else (n + 99) / 100 + loopTxsGo fuel ((n + 99) / 100)

/-- The least k with n <= 100 ^ k, computed by repeated ceiling division
(the characterization is proved in smallestKGo_spec). -/
def smallestKGo : Nat → Nat → Nat
  | 0, _ => 0
  | fuel + 1, n => if n ≤ 1 then 0 else smallestKGo fuel ((n + 99) / 100) + 1

/-- Total merge rounds (transaction layers) of
compress_to_single_outpoint on n outpoints: the loop iterations plus the
final consolidating spend. -/
def mergeRounds (n : Nat) : Nat := loopRoundsGo n n + 1

/-- Total merge transactions of compress_to_single_outpoint on n
outpoints: the loop transactions plus the final consolidating spend. -/
def mergeTxs (n : Nat) : Nat := loopTxsGo n n + 1

/-- The least k with n <= 100 ^ k. -/
def smallestK (n : Nat) : Nat := smallestKGo n n

/-- Closed-form success of the consolidation while-loop: with enough fuel
it returns a non-empty outpoint list short enough for one transaction,
having burnt the flat fee once per merge transaction, mined one block
per iteration, and appended one transaction per merge. -/
theorem compress_loop_spec :
    ∀ (fuel : Nat) (current : List Outpoint) (st : Node),
      current.length ≤ fuel →
      0 < current.length →
      (st.shuffle = fun l => l) →
      (∀ tx txs mp, st.policy tx txs mp = true) →
      (∀ n, st.txs.find? (fun t => t.txid = st.nextTxid + n) = none) →
      ∃ final stOut,
        compress_loop fuel current st = .ok final stOut ∧
        0 < final.length ∧
        final.length ≤ MAX_INPUTS_PER_TX ∧
        listSum final =
          listSum current - 1000 * (loopTxsGo fuel current.length : Int) ∧
        stOut.blocks = st.blocks + loopRoundsGo fuel current.length ∧
        stOut.txs.length = st.txs.length + loopTxsGo fuel current.length ∧
        stOut.shuffle = st.shuffle ∧
        stOut.policy = st.policy ∧
        (∀ n, stOut.txs.find? (fun t => t.txid = stOut.nextTxid + n) = none) := by
  intro fuel
  induction fuel with
  | zero =>
    intro current st hle hpos hsh hpol hfr
    exact absurd hle (by omega)
  | succ fuel ih =>
    intro current st hle hpos hsh hpol hfr
    by_cases hsmall : current.length ≤ MAX_INPUTS_PER_TX
    · have hsmall100 : current.length ≤ 100 := hsmall
      refine ⟨current, st, ?_, hpos, hsmall, ?_, ?_, ?_, rfl, rfl, hfr⟩
      · simp only [compress_loop]
        rw [if_pos hsmall]
      · simp only [loopTxsGo]
        rw [if_pos hsmall100]
        simp
      · simp only [loopRoundsGo]
        rw [if_pos hsmall100]
        omega
      · simp only [loopTxsGo]
        rw [if_pos hsmall100]
        omega
    · have hgt100 : 100 < current.length := Nat.not_le.mp hsmall
      have hmemg : ∀ g ∈ chunked current MAX_INPUTS_PER_TX,
          g ≠ [] ∧ g.length ≤ MAX_INPUTS_PER_TX := by
        intro g hgval
        unfold chunked at hgval
        rw [if_neg (by decide)] at hgval
        exact chunkedGo_mem MAX_INPUTS_PER_TX (by decide) current.length
          current g hgval
      obtain ⟨outs, st1, heqg, hleng, hsumg, hblocksg, htxsg, hshufg, hpolg,
        hfrg⟩ := spend_groups_spec (chunked current MAX_INPUTS_PER_TX) st
          hmemg hsh hpol hfr
      have hlen100 : (chunked current MAX_INPUTS_PER_TX).length =
          (current.length + 99) / 100 := by
        rw [chunked_length current MAX_INPUTS_PER_TX (by decide)]
        simp only [MAX_INPUTS_PER_TX]
        omega
      have hflat : (chunked current MAX_INPUTS_PER_TX).flatten = current := by
        unfold chunked
        rw [if_neg (by decide)]
        exact chunkedGo_flatten MAX_INPUTS_PER_TX (by decide)
          current.length current le_rfl
      have hsums : listSum outs =
          listSum current -
            1000 * (((current.length + 99) / 100 : Nat) : Int) := by
        rw [hsumg, listSum_flatten, hflat, hlen100]
      set st2 := generatetoaddress 1 { st1 with nextAddr := st1.nextAddr + 1 }
        with hst2
      have hsh2 : st2.shuffle = fun l => l := by
        rw [show st2.shuffle = st1.shuffle from rfl, hshufg]
        exact hsh
      have hpol2 : ∀ tx txs mp, st2.policy tx txs mp = true := by
        intro tx txs mp
        rw [show st2.policy = st1.policy from rfl, hpolg]
        exact hpol tx txs mp
      have hfr2 : ∀ n, st2.txs.find?
          (fun t => t.txid = st2.nextTxid + n) = none := by
        intro n
        rw [show st2.txs = st1.txs from rfl,
          show st2.nextTxid = st1.nextTxid from rfl]
        exact hfrg n
      have hreclen : outs.length ≤ fuel := by
        rw [hleng, hlen100]
        omega
      have hrecpos : 0 < outs.length := by
        rw [hleng, hlen100]
        omega
      obtain ⟨final, stOut, heqr, hfpos, hfle, hfsum, hfblocks, hftxs, hfshuf,
        hfpol, hffr⟩ := ih outs st2 hreclen hrecpos hsh2 hpol2 hfr2
      have hnotle : ¬ current.length ≤ 100 := hsmall
      refine ⟨final, stOut, ?_, hfpos, hfle, ?_, ?_, ?_, ?_, ?_, hffr⟩
      · simp only [compress_loop]
        rw [if_neg hsmall]
        simp only [heqg, mine_to_wallet, getnewaddressM]
        exact heqr
      · rw [hfsum, hsums, hleng, hlen100]
        simp only [loopTxsGo]
        rw [if_neg hnotle]
        set gl := (current.length + 99) / 100
        push_cast
        ring
      · rw [hfblocks, show st2.blocks = st1.blocks + 1 from rfl, hblocksg,
          hleng, hlen100]
        simp only [loopRoundsGo]
        rw [if_neg hnotle]
        omega
      · rw [hftxs, show st2.txs.length = st1.txs.length from rfl, htxsg,
          hleng, hlen100]
        simp only [loopTxsGo]
        rw [if_neg hnotle]
        omega
      · rw [hfshuf, show st2.shuffle = st1.shuffle from rfl, hshufg]
      · rw [hfpol, show st2.policy = st1.policy from rfl, hpolg]
/-- Helper: on an input of at least two items the least-k search returns a
positive count. -/
theorem smallestKGo_pos : ∀ (fuel n : Nat), 2 ≤ n → n ≤ fuel →
    1 ≤ smallestKGo fuel n := by
  intro fuel n h2 hle
  cases fuel with
  | zero => exact absurd hle (by omega)
  | succ f =>
    simp only [smallestKGo]
    rw [if_neg (by omega)]
    omega

/-- Helper: the loop-iteration count plus one (the final consolidating
spend) equals the least k with n <= 100 ^ k, floored at one. -/
theorem loopRounds_smallestK : ∀ (fuel n : Nat), 0 < n → n ≤ fuel →
    loopRoundsGo fuel n + 1 = max 1 (smallestKGo fuel n) := by
  intro fuel
  induction fuel with
  | zero =>
    intro n h1 hle
    exact absurd hle (by omega)
  | succ fuel ih =>
    intro n h1 hle
    by_cases hn1 : n ≤ 1
    · simp only [loopRoundsGo, smallestKGo]
      rw [if_pos (by omega : n ≤ 100), if_pos hn1]
      omega
    · by_cases hn100 : n ≤ 100
      · simp only [loopRoundsGo, smallestKGo]
        rw [if_pos hn100, if_neg hn1]
        have hceil : (n + 99) / 100 = 1 := by omega
        rw [hceil]
        have h1f : smallestKGo fuel 1 = 0 := by
          cases fuel with
          | zero => rfl
          | succ f =>
            simp only [smallestKGo]
            rw [if_pos (by omega : (1 : Nat) ≤ 1)]
        rw [h1f]
        omega
      · simp only [loopRoundsGo, smallestKGo]
        rw [if_neg hn100, if_neg hn1]
        have hceil2 : 2 ≤ (n + 99) / 100 := by omega
        have hceille : (n + 99) / 100 ≤ fuel := by omega
        have hk := smallestKGo_pos fuel ((n + 99) / 100) hceil2 hceille
        have hstep := ih ((n + 99) / 100) (by omega) hceille
        omega

/-- Helper: smallestKGo computes the least k with n <= 100 ^ k. -/
theorem smallestKGo_spec : ∀ (fuel n : Nat), 0 < n → n ≤ fuel →
    n ≤ 100 ^ smallestKGo fuel n ∧
      ∀ j, n ≤ 100 ^ j → smallestKGo fuel n ≤ j := by
  intro fuel
  induction fuel with
  | zero =>
    intro n h1 hle
    exact absurd hle (by omega)
  | succ fuel ih =>
    intro n h1 hle
    by_cases hn1 : n ≤ 1
    · simp only [smallestKGo]
      rw [if_pos hn1]
      exact ⟨by simpa using hn1, fun j _ => Nat.zero_le j⟩
    · simp only [smallestKGo]
      rw [if_neg hn1]
      have hceil1 : 1 ≤ (n + 99) / 100 := by omega
      have hceille : (n + 99) / 100 ≤ fuel := by omega
      obtain ⟨hup, hleast⟩ := ih ((n + 99) / 100) hceil1 hceille
      constructor
      · have h100 : n ≤ 100 * ((n + 99) / 100) := by omega
        calc n ≤ 100 * ((n + 99) / 100) := h100
          _ ≤ 100 * 100 ^ smallestKGo fuel ((n + 99) / 100) :=
              Nat.mul_le_mul_left 100 hup
          _ = 100 ^ (smallestKGo fuel ((n + 99) / 100) + 1) := by
              rw [pow_succ, Nat.mul_comm]
      · intro j hj
        match j with
        | 0 =>
          rw [pow_zero] at hj
          omega
        | j + 1 =>
          have hmul : n ≤ 100 * 100 ^ j := by
            rw [pow_succ, Nat.mul_comm] at hj
            exact hj
          have hj' : (n + 99) / 100 ≤ 100 ^ j := by
            have hm : 0 ≤ 100 ^ j := Nat.zero_le _
            omega
          have := hleast j hj'
          omega

/-- C1: corrected consolidation-compressor account.  From any non-empty
outpoint list (and a well-formed node) compress_to_single_outpoint
succeeds with a single final outpoint whose value is the sum of all
input values minus the flat fee once per merge transaction; the number
of merge rounds (transaction layers) is max 1 (smallestK N) — the least
k with N <= 100 ^ k floored at one, since even a single outpoint is
consolidated by one final spend — with one mined block per round beyond
the last, mergeTxs N merge transactions in total, and smallestK N is
characterized as that least k. -/
theorem C1_compressor_rounds_value (st : Node) (outpoints : List Outpoint)
    (hne : outpoints ≠ [])
    (hsh : st.shuffle = fun l => l)
    (hpol : ∀ tx txs mp, st.policy tx txs mp = true)
    (hfr : ∀ n, st.txs.find? (fun t => t.txid = st.nextTxid + n) = none) :
    ∃ txid final lastIn stOut,
      compress_to_single_outpoint outpoints st =
        .ok (txid, final, lastIn) stOut ∧
      final.map Outpoint.value_sat =
        [listSum outpoints - 1000 * (mergeTxs outpoints.length : Int)] ∧
      stOut.txs.length = st.txs.length + mergeTxs outpoints.length ∧
      stOut.blocks = st.blocks + (mergeRounds outpoints.length - 1) ∧
      mergeRounds outpoints.length = max 1 (smallestK outpoints.length) ∧
      outpoints.length ≤ 100 ^ smallestK outpoints.length ∧
      (∀ j, outpoints.length ≤ 100 ^ j → smallestK outpoints.length ≤ j) := by
  have hpos : 0 < outpoints.length := List.length_pos.mpr hne
  have hrounds := loopRounds_smallestK outpoints.length outpoints.length
    hpos le_rfl
  have hchar := smallestKGo_spec outpoints.length outpoints.length hpos le_rfl
  unfold compress_to_single_outpoint
  rw [if_neg hne]
  by_cases hsmall : outpoints.length ≤ MAX_INPUTS_PER_TX
  · have hsmall100 : outpoints.length ≤ 100 := hsmall
    rw [if_pos hsmall]
    have hfind0 : st.txs.find? (fun t => t.txid = st.nextTxid) = none := by
      simpa using hfr 0
    have hsum : [listSum outpoints - PER_TX_FEE_SAT].sum <
        (outpoints.map Outpoint.value_sat).sum := by
      simp only [List.sum_cons, List.sum_nil, add_zero, PER_TX_FEE_SAT]
      have hls : (outpoints.map Outpoint.value_sat).sum = listSum outpoints :=
        rfl
      rw [hls]
      omega
    have hone := spend_inputs_eval hsh hfind0 (hpol _ _ _) hne hsmall
      (by simp [MAX_OUTPUTS_PER_TX]) hsum
    simp only [hone]
    have hlt : loopTxsGo outpoints.length outpoints.length = 0 := by
      cases h : outpoints.length with
      | zero => omega
      | succ m =>
        simp only [loopTxsGo]
        rw [if_pos (by omega)]
    have hlr : loopRoundsGo outpoints.length outpoints.length = 0 := by
      cases h : outpoints.length with
      | zero => omega
      | succ m =>
        simp only [loopRoundsGo]
        rw [if_pos (by omega)]
    refine ⟨_, _, _, _, rfl, ?_, ?_, ?_, ?_, hchar.1, hchar.2⟩
    · rw [spendOutsGo_map_value]
      unfold mergeTxs
      rw [hlt]
      simp only [PER_TX_FEE_SAT]
      norm_num
    · rw [spendNodeOf_txs, List.length_append, List.length_singleton]
      unfold mergeTxs
      rw [hlt]
    · rw [spendNodeOf_blocks]
      unfold mergeRounds
      rw [hlr]
      omega
    · unfold mergeRounds smallestK
      rw [hlr]
      omega
  · rw [if_neg hsmall]
    obtain ⟨final, st1, heql, hfpos, hfle, hfsum, hfblocks, hftxs, hfshuf,
      hfpol, hffr⟩ := compress_loop_spec outpoints.length outpoints st
        le_rfl hpos hsh hpol hfr
    have hfind1 : st1.txs.find? (fun t => t.txid = st1.nextTxid) = none := by
      simpa using hffr 0
    have hfne : final ≠ [] := List.ne_nil_of_length_pos hfpos
    have hsh1 : st1.shuffle = fun l => l := by
      rw [hfshuf]
      exact hsh
    have hpol1 : st1.policy (spendTxOf st1 final [listSum final - PER_TX_FEE_SAT])
        st1.txs st1.mempool = true := by
      rw [hfpol]
      exact hpol _ _ _
    have hsum2 : [listSum final - PER_TX_FEE_SAT].sum <
        (final.map Outpoint.value_sat).sum := by
      simp only [List.sum_cons, List.sum_nil, add_zero, PER_TX_FEE_SAT]
      have hls : (final.map Outpoint.value_sat).sum = listSum final := rfl
      rw [hls]
      omega
    have htwo := spend_inputs_eval hsh1 hfind1 hpol1 hfne hfle
      (by simp [MAX_OUTPUTS_PER_TX]) hsum2
    simp only [heql, htwo]
    refine ⟨_, _, _, _, rfl, ?_, ?_, ?_, ?_, hchar.1, hchar.2⟩
    · rw [spendOutsGo_map_value, hfsum]
      unfold mergeTxs
      simp only [PER_TX_FEE_SAT, List.cons.injEq, and_true]
      push_cast
      ring
    · rw [spendNodeOf_txs, List.length_append, List.length_singleton, hftxs]
      unfold mergeTxs
      omega
    · rw [spendNodeOf_blocks, hfblocks]
      unfold mergeRounds
      omega
    · unfold mergeRounds smallestK
      omega

/-- C1 witness: compressing two seed outpoints from the canonical fresh
node (one merge round, one merge transaction). -/
theorem C1_compressor_rounds_value_witness :
    ∃ txid final lastIn stOut,
      compress_to_single_outpoint [seed0, seed1] node0 =
        .ok (txid, final, lastIn) stOut ∧
      final.map Outpoint.value_sat =
        [listSum [seed0, seed1] -
          1000 * (mergeTxs [seed0, seed1].length : Int)] ∧
      stOut.txs.length = node0.txs.length + mergeTxs [seed0, seed1].length ∧
      stOut.blocks = node0.blocks + (mergeRounds [seed0, seed1].length - 1) ∧
      mergeRounds [seed0, seed1].length =
        max 1 (smallestK [seed0, seed1].length) ∧
      [seed0, seed1].length ≤ 100 ^ smallestK [seed0, seed1].length ∧
      (∀ j, [seed0, seed1].length ≤ 100 ^ j →
        smallestK [seed0, seed1].length ≤ j) :=
  C1_compressor_rounds_value node0 [seed0, seed1] (by decide) rfl
    (fun _ _ _ => rfl) (fun _ => rfl)

/-- C1 counterexample to the specified round count: for a single input
outpoint the least k with 1 <= 100 ^ k is zero, yet the compressor still
performs one merge transaction (and burns one fee) rather than zero. -/
theorem C1_single_outpoint_still_merged :
    smallestK 1 = 0 ∧
    compress_to_single_outpoint [seed0] node0 =
      .ok (0, [{ txid := 0, vout := 0, value_sat := 99999000, address := 0 }],
        [seed0]) (spendNodeOf node0 [seed0] [99999000]) ∧
    (spendNodeOf node0 [seed0] [99999000]).txs.length =
      node0.txs.length + 1 :=
  ⟨rfl, rfl, rfl⟩
